import Mathlib

/-!
# Verification of the `@neonflare/mcp` instrumentation package

A shallow embedding in Lean 4 of the observability core of the
`pandemicsyn/neonflare` repository (TypeScript):

* `packages/mcp/src/types/index.ts` — context-injection middleware
  (`injectContextIntoSchema`, `extractContextFromArgs`,
  `stripContextFromArgs`, `ContextInjectionMiddleware.processToolArguments`);
* `packages/mcp/src/core/errors.ts` — the error taxonomy, the message
  classifier `convertToMCPError`, and the error-storm statistics
  (`updateErrorStats` / `isErrorStorm` / `handleError`);
* `packages/mcp/src/core/tracker.ts` — the operation tracker
  (`startMCPSpan`, `endMCPSpan`, `addMethodSpecificAttributes`,
  `addTelemetryEvent`, `getCurrentMetrics`, hook executors);
* `packages/mcp/src/index.ts` — the server-wrapping facade
  (`wrapServerMethods`'s wrapped handler);
* `packages/mcp/src/telemetry/providers.ts` — the composite telemetry
  provider (`recordEvent`, `getMetrics`, `getEvents`).

Untyped JavaScript payloads (`any`) are modelled by the inductive `JVal`;
JavaScript `Map`s and objects are association lists read at the first
binding; effectful method calls are modelled as explicit state passing,
with calls into the external tracing backend recorded in effect logs.
Durations and timestamps are rationals (floating-point rounding and `NaN`
are not modelled; none of the proved statements depend on them).
-/

namespace Neonflare

/-- JSON-like runtime values, modelling the untyped (`any`) payloads the
TypeScript source passes around.  Objects are association lists in
insertion order; JavaScript objects cannot hold duplicate keys, and all
modelled reads take the first binding. -/
inductive JVal where
  | null
  | bool (b : Bool)
  | num (q : ℚ)
  | str (s : String)
  | arr (elems : List JVal)
  | obj (fields : List (String × JVal))

/-- JavaScript truthiness of a value (`if (v)`).  `null` models both
`null` and `undefined` when a value is present; a missing value
(`undefined`) is `Option.none` at use sites. -/
def jsTruthy : JVal → Bool
  | .null => false
  | .bool b => b
  | .num q => decide (q ≠ 0)
  | .str s => decide (s ≠ "")
  | .arr _ => true
  | .obj _ => true

/-- `typeof v === 'object'` (true for objects, arrays and `null`). -/
def jsTypeofObject : JVal → Bool
  | .null => true
  | .obj _ => true
  | .arr _ => true
  | _ => false

/-- `typeof v === 'string'`. -/
def jsIsString : JVal → Bool
  | .str _ => true
  | _ => false

/-- Property read `v[k]`, with JavaScript's `undefined` modelled as
`none`.  Array reads accept canonical numeric keys; all other reads on
non-objects yield `undefined`. -/
def jsGet : JVal → String → Option JVal
  | .obj fs, k => fs.lookup k
  | .arr xs, k =>
    match k.toNat? with
    | some i => xs[i]?
    | none => none
  | _, _ => none

/-- Optional-chained property read `v?.k` (`none` input stays `none`). -/
def jsGetOpt (v : Option JVal) (k : String) : Option JVal :=
  match v with
  | none => none
  | some w => jsGet w k

/-- Generic first-binding map update, shared by JavaScript `Map.set`
(replace the existing entry, else append) and object-property
assignment (update in place, preserving key order, else append). -/
def mapSet {α β : Type} [DecidableEq α] : List (α × β) → α → β → List (α × β)
  | [], k, v => [(k, v)]
  | (k', v') :: t, k, v =>
    if k' = k then (k, v) :: t else (k', v') :: mapSet t k v

/-- Property assignment on an association list (JavaScript object
semantics, see `mapSet`). -/
def jsObjSet (fs : List (String × JVal)) (k : String) (v : JVal) : List (String × JVal) :=
  mapSet fs k v

/-- Property assignment `v[k] = w` on a `JVal`.  On a non-object the
strict-mode runtime raises a `TypeError`; such inputs are outside the
domain the source supports, and the theorems below restrict to
well-formed schemas, so the non-object case is left as the identity. -/
def jsSetProp (v : JVal) (k : String) (w : JVal) : JVal :=
  match v with
  | .obj fs => .obj (jsObjSet fs k w)
  | other => other

/-- `arrayValue.includes(s)` for a string argument: strict equality
against each element.  On a non-array the runtime would raise; outside
the modelled domain, returns `false`. -/
def jsArrIncludesStr (v : JVal) (s : String) : Bool :=
  match v with
  | .arr xs =>
    xs.any fun w =>
      match w with
      | .str t => decide (t = s)
      | _ => false
  | _ => false

/-- `arrayValue.push(w)` (non-arrays left unchanged, see `jsSetProp`). -/
def jsArrPush (v : JVal) (w : JVal) : JVal :=
  match v with
  | .arr xs => .arr (xs ++ [w])
  | other => other

/-- `Map.prototype.get` with a default (`map.get(k) || d` on truthy
defaults, `map.get(k) ?? d` otherwise; the source only uses `|| 0`). -/
def mapGetD {α β : Type} [BEq α] (m : List (α × β)) (k : α) (d : β) : β :=
  (m.lookup k).getD d

/-- `Map.prototype.delete`: the key is removed.  (A JavaScript `Map`
never holds duplicate keys; filtering every binding of the key agrees
with deleting the unique one on all states reachable through
`mapSet`.) -/
def mapDel {α β : Type} [DecidableEq α] (m : List (α × β)) (k : α) : List (α × β) :=
  m.filter fun p => decide (p.1 ≠ k)

/-! ## Context-injection middleware (`types/index.ts`, context-injector)

The TypeScript configuration object has optional fields whose defaults
are applied by destructuring (`injectContextIntoSchema`) or by object
spread in the `ContextInjectionMiddleware` constructor; the embedding
carries the fields with those defaults already applied. -/

structure ContextInjectionConfig where
  enabled : Bool := true
  description : String := "Explain why you are calling this tool and what you hope to accomplish"
  required : Bool := false
  parameterName : String := "context"

/-- The injected string property `{ type: 'string', description }`. -/
def contextProperty (description : String) : JVal :=
  .obj [("type", .str "string"), ("description", .str description)]

/-- The schema synthesized by `injectContextIntoSchema` for a falsy
input schema. -/
def synthesizedSchema (cfg : ContextInjectionConfig) : JVal :=
  .obj [("type", .str "object"),
        ("properties", .obj [(cfg.parameterName, contextProperty cfg.description)]),
        ("required", .arr (if cfg.required then [.str cfg.parameterName] else []))]

/-- `injectContextIntoSchema(schema, config)` from
`types/index.ts`.  A `none` input models passing `undefined`.  The
`JSON.parse(JSON.stringify(schema))` deep copy is the identity in a pure
embedding (the source never mutates its input). -/
def injectContextIntoSchema (schema : Option JVal) (cfg : ContextInjectionConfig) : Option JVal :=
  if !cfg.enabled then
    schema
  else
    match schema with
    | none => some (synthesizedSchema cfg)
    | some s =>
      if !jsTruthy s then some (synthesizedSchema cfg)
      else
        -- if (!modifiedSchema.properties) modifiedSchema.properties = {}
        let props : JVal :=
          match jsGet s "properties" with
          | some p => if jsTruthy p then p else .obj []
          | none => .obj []
        -- modifiedSchema.properties[parameterName] = { type: 'string', description }
        let props' : JVal := jsSetProp props cfg.parameterName (contextProperty cfg.description)
        let s1 : JVal := jsSetProp s "properties" props'
        if cfg.required then
          -- modifiedSchema.required = modifiedSchema.required || []
          let req : JVal :=
            match jsGet s1 "required" with
            | some r => if jsTruthy r then r else .arr []
            | none => .arr []
          -- if (!modifiedSchema.required.includes(parameterName)) push
          let req' : JVal :=
            if jsArrIncludesStr req cfg.parameterName then req
            else jsArrPush req (.str cfg.parameterName)
          some (jsSetProp s1 "required" req')
        else
          some s1

/-- `extractContextFromArgs(args, parameterName)`:
returns the named property only when it is a string. -/
def extractContextFromArgs (args : JVal) (parameterName : String) : Option String :=
  if !jsTruthy args || !jsTypeofObject args then none
  else
    match jsGet args parameterName with
    | some (.str s) => some s
    | _ => none

/-- `stripContextFromArgs(args, parameterName)`: rest-spread removal of
the named property; non-object input is returned unchanged.  Spreading
an array produces an object keyed by the decimal indices, as in
JavaScript. -/
def stripContextFromArgs (args : JVal) (parameterName : String) : JVal :=
  if !jsTruthy args || !jsTypeofObject args then args
  else
    match args with
    | .obj fs => .obj (fs.filter fun p => decide (p.1 ≠ parameterName))
    | .arr xs =>
      .obj (((xs.enum.map fun p => (toString p.1, p.2)).filter
        fun p => decide (p.1 ≠ parameterName)))
    | other => other

/-- Result record of `ContextInjectionMiddleware.processToolArguments`. -/
structure ProcessedArgs where
  context : Option String
  cleanedArgs : JVal

/-- `ContextInjectionMiddleware.processToolArguments(toolName, args)`:
extract then strip with the instance's configured parameter name (the
`toolName` argument is only used for logging). -/
def processToolArguments (cfg : ContextInjectionConfig) (args : JVal) : ProcessedArgs :=
  { context := extractContextFromArgs args cfg.parameterName
    cleanedArgs := stripContextFromArgs args cfg.parameterName }

/-! ## Error taxonomy and storm statistics (`core/errors.ts`) -/

/-- The fixed `MCPErrorType` enumeration. -/
inductive MCPErrorType where
  | invalid_request
  | method_not_found
  | invalid_params
  | internal_error
  | authentication_failed
  | authorization_failed
  | resource_not_found
  | resource_exhausted
  | timeout
  | cancelled
  | connection_error
  | protocol_error
deriving DecidableEq, Repr

/-- A plain JavaScript `Error` reaching the classifier: its `name` and
`message` are all `convertToMCPError` reads. -/
structure JSError where
  name : String := "Error"
  message : String

/-- The normalized `MCPError` shape (the `details` payload, which the
source fills with the original error object, is not needed by any
claim and is omitted). -/
structure MCPError where
  etype : MCPErrorType
  message : String
  code : JVal
  retryable : Bool := false

/-- Substring test on character lists, modelling
`String.prototype.includes` (case-sensitive). -/
def charsInfix : List Char → List Char → Bool
  | n, [] => n.isEmpty
  | n, c :: t => n.isPrefixOf (c :: t) || charsInfix n t

/-- `s.includes(pat)`. -/
def strIncludes (s pat : String) : Bool :=
  charsInfix pat.toList s.toList

/-- `MCPErrorHandler.convertToMCPError(error)`: ordered heuristic
classification of a non-`MCPError` failure. -/
def convertToMCPError (e : JSError) : MCPError :=
  if strIncludes e.message "timeout" || e.name == "TimeoutError" then
    { etype := .timeout, message := e.message, code := .str "TIMEOUT" }
  else if strIncludes e.message "connection" || strIncludes e.message "ECONNREFUSED" then
    { etype := .connection_error, message := e.message, code := .str "CONNECTION_ERROR" }
  else if strIncludes e.message "authentication" || strIncludes e.message "unauthorized" then
    { etype := .authentication_failed, message := e.message, code := .str "AUTH_FAILED" }
  else if strIncludes e.message "permission" || strIncludes e.message "forbidden" then
    { etype := .authorization_failed, message := e.message, code := .str "AUTHZ_FAILED" }
  else if strIncludes e.message "not found" then
    { etype := .resource_not_found, message := e.message, code := .str "NOT_FOUND" }
  else
    { etype := .internal_error, message := e.message, code := .str "INTERNAL_ERROR" }

/-- Modelled from the spec: the classifier exactly as the claim words
it — ordered substring matching **on the message alone**, first match
wins, default `internal-error`.  Kept separate from `convertToMCPError`
(the source), to be compared with it. -/
def claimMessageOnlyClassify (message : String) : MCPErrorType :=
  if strIncludes message "timeout" then .timeout
  else if strIncludes message "connection" || strIncludes message "ECONNREFUSED" then .connection_error
  else if strIncludes message "authentication" || strIncludes message "unauthorized" then .authentication_failed
  else if strIncludes message "permission" || strIncludes message "forbidden" then .authorization_failed
  else if strIncludes message "not found" then .resource_not_found
  else .internal_error

/-- The amended rule list: as `claimMessageOnlyClassify`, except that
the first (timeout) rule also fires when the error's `name` is
`'TimeoutError'`. -/
def amendedClassify (e : JSError) : MCPErrorType :=
  if strIncludes e.message "timeout" || e.name == "TimeoutError" then .timeout
  else if strIncludes e.message "connection" || strIncludes e.message "ECONNREFUSED" then .connection_error
  else if strIncludes e.message "authentication" || strIncludes e.message "unauthorized" then .authentication_failed
  else if strIncludes e.message "permission" || strIncludes e.message "forbidden" then .authorization_failed
  else if strIncludes e.message "not found" then .resource_not_found
  else .internal_error

/-- Mutable statistics of `MCPErrorHandler` (`errorCounts`,
`lastErrorTime`, with the default threshold and window). -/
structure ErrorHandlerState where
  errorCounts : List (MCPErrorType × Nat) := []
  lastErrorTime : List (MCPErrorType × ℚ) := []
  errorThreshold : Nat := 10
  timeWindow : ℚ := 60000

/-- `MCPErrorHandler.updateErrorStats(errorType)` at current time
`now`.  Note: the source updates `lastErrorTime` **only** in the reset
branch. -/
def updateErrorStats (errorType : MCPErrorType) (now : ℚ) (st : ErrorHandlerState) :
    ErrorHandlerState :=
  let count := mapGetD st.errorCounts errorType 0
  let lastTime := mapGetD st.lastErrorTime errorType 0
  if now - lastTime > st.timeWindow then
    { st with errorCounts := mapSet st.errorCounts errorType 1,
              lastErrorTime := mapSet st.lastErrorTime errorType now }
  else
    { st with errorCounts := mapSet st.errorCounts errorType (count + 1) }

/-- `MCPErrorHandler.isErrorStorm(errorType)`. -/
def isErrorStorm (errorType : MCPErrorType) (st : ErrorHandlerState) : Bool :=
  decide (st.errorThreshold ≤ mapGetD st.errorCounts errorType 0)

/-- One `MCPErrorHandler.handleError` call on an already-normalized
`MCPError` at time `now`: updates statistics, then reports whether the
storm warning fires; the returned error is the input error (span and
logging effects carry no state relevant to the claims). -/
def handleErrorMCP (err : MCPError) (now : ℚ) (st : ErrorHandlerState) :
    MCPError × ErrorHandlerState × Bool :=
  let st' := updateErrorStats err.etype now st
  (err, st', isErrorStorm err.etype st')

/-- Run a sequence of handled `(errorType, time)` errors from a state,
returning the final state and the number of storm warnings emitted. -/
def runErrorSeq (steps : List (MCPErrorType × ℚ)) (st : ErrorHandlerState) :
    ErrorHandlerState × Nat :=
  match steps with
  | [] => (st, 0)
  | (t, now) :: rest =>
    let st' := updateErrorStats t now st
    let w := isErrorStorm t st'
    let (stFin, n) := runErrorSeq rest st'
    (stFin, (if w then 1 else 0) + n)

/-- Modelled from the spec: the per-type counter as the claim words it
— reset to 1 when the elapsed time since the **last-seen error** of the
type exceeds the window, incremented otherwise, with the last-seen
timestamp advanced on every error; the warning fires exactly once, when
the count reaches the threshold.  State: (count, lastSeen). -/
def claimStormStep (window : ℚ) (threshold : Nat) (now : ℚ) :
    Nat × ℚ → (Nat × ℚ) × Bool
  | (count, lastSeen) =>
    let count' := if now - lastSeen > window then 1 else count + 1
    ((count', now), decide (count' = threshold))

/-- Loop of `claimStormRun`. -/
def claimStormGo (window : ℚ) (threshold : Nat) :
    List ℚ → Nat × ℚ → Nat → Nat × Nat
  | [], (count, _), warns => (count, warns)
  | now :: rest, s, warns =>
    let sw := claimStormStep window threshold now s
    claimStormGo window threshold rest sw.1 (warns + (if sw.2 then 1 else 0))

/-- Modelled from the spec: run the claim's counter over a sequence of
error times for a single type, returning the final count and the number
of warnings. -/
def claimStormRun (window : ℚ) (threshold : Nat) (times : List ℚ) : Nat × Nat :=
  claimStormGo window threshold times (0, 0) 0

/-! ## Operation tracker (`core/tracker.ts`) -/

/-- The `TelemetryEventType` enumeration. -/
inductive TelemetryEventType where
  | request_start
  | request_end
  | error
  | session_start
  | session_end
  | metric_update
deriving DecidableEq, Repr

/-- The `{code, message, details}` error payload of a method result. -/
structure ResultError where
  code : JVal
  message : String
  details : Option JVal := none

/-- Request metadata stored on an operation context. -/
structure OperationMetadata where
  method : Option String := none
  requestId : Option String := none
  params : Option JVal := none
  aiContext : Option String := none

/-- `MCPOperationContext`. -/
structure MCPOperationContext where
  operationId : String
  startTime : ℚ
  metadata : OperationMetadata

/-- `MCPMethodCall` (hook payload). -/
structure MCPMethodCall where
  method : String
  params : Option JVal := none
  timestamp : ℚ

/-- `MCPMethodResult`. -/
structure MCPMethodResult where
  success : Bool
  data : Option JVal := none
  error : Option ResultError := none
  duration : ℚ
  timestamp : ℚ

/-- The payload of a telemetry event (`event.data`); fields the source
never sets on an event kind stay `none` (JavaScript `undefined`). -/
structure EventData where
  operationId : String
  method : Option String := none
  metadata : Option OperationMetadata := none
  success : Option Bool := none
  duration : Option ℚ := none
  error : Option ResultError := none
  projectId : Option String := none

/-- Trace/span correlation ids of a span. -/
structure SpanContextIds where
  traceId : String
  spanId : String
deriving DecidableEq, Repr

/-- `TelemetryEvent`. -/
structure TelemetryEvent where
  type : TelemetryEventType
  timestamp : ℚ
  data : EventData
  spanContext : Option SpanContextIds := none

/-- Span status as set through `span.setStatus`. -/
inductive SpanStatus where
  | unset
  | ok
  | error (message : String)

/-- A span of the external tracing backend, as observed through the
calls the tracker makes on it (`setAttributes` accumulates by property
assignment, `setStatus` overwrites). -/
structure Span where
  name : String
  attributes : List (String × JVal)
  status : SpanStatus
  spanContext : SpanContextIds

/-- The configuration fields of `MCPInstrumentationConfig` the tracked
operations read (`projectId`, `defaultAttributes`); the remaining
fields only parameterize the external exporter. -/
structure TrackerConfig where
  projectId : Option String := none
  defaultAttributes : List (String × JVal) := []

/-- Mutable state of an `MCPTracker`; `endedSpans` is the effect log of
`span.end()` calls (each ended span with its final attributes and
status). -/
structure TrackerState where
  telemetryEvents : List TelemetryEvent := []
  activeSpans : List (String × Span) := []
  endedSpans : List (String × Span) := []

/-- `MCPTracker.createOperationContext(method, requestId, params)`.
The generated operation id (`op_<time>_<random>`) and the `Date.now()`
start time are environment inputs, passed explicitly. -/
def createOperationContext (method : String) (requestId : Option String) (params : Option JVal)
    (operationId : String) (startTime : ℚ) : MCPOperationContext :=
  { operationId := operationId
    startTime := startTime
    metadata := { method := some method, requestId := requestId, params := params } }

/-- `MCPTracker.addTelemetryEvent(event)`: append, then keep only the
most recent 1000 events. -/
def addTelemetryEvent (st : TrackerState) (event : TelemetryEvent) : TrackerState :=
  let events := st.telemetryEvents ++ [event]
  let events := if 1000 < events.length then events.drop (events.length - 1000) else events
  { st with telemetryEvents := events }

/-- `MCPTracker.extractMethodFromOperationId(operationId)` — the source
body is literally `return 'unknown'`, ignoring its argument (the
generated operation ids carry no method name). -/
def extractMethodFromOperationId (_operationId : String) : String :=
  "unknown"

/-- `span.setAttributes(attrs)`: assign each key in order onto the
span's attribute map. -/
def setAttributesOn (base attrs : List (String × JVal)) : List (String × JVal) :=
  attrs.foldl (fun acc p => jsObjSet acc p.1 p.2) base

/-- `MCPTracker.addMethodSpecificAttributes(attributes, operationId,
result)`: switch on the method extracted from the operation id. -/
def addMethodSpecificAttributes (attributes : List (String × JVal)) (operationId : String)
    (result : MCPMethodResult) : List (String × JVal) :=
  let method := extractMethodFromOperationId operationId
  if method == "tools/list" then
    match jsGetOpt result.data "tools" with
    | some v =>
      if jsTruthy v then
        jsObjSet attributes "mcp.tools_count"
          (.num (match v with | .arr xs => (xs.length : ℚ) | _ => 0))
      else attributes
    | none => attributes
  else if method == "resources/list" then
    match jsGetOpt result.data "resources" with
    | some v =>
      if jsTruthy v then
        jsObjSet attributes "mcp.resources_count"
          (.num (match v with | .arr xs => (xs.length : ℚ) | _ => 0))
      else attributes
    | none => attributes
  else if method == "prompts/list" then
    match jsGetOpt result.data "prompts" with
    | some v =>
      if jsTruthy v then
        jsObjSet attributes "mcp.prompts_count"
          (.num (match v with | .arr xs => (xs.length : ℚ) | _ => 0))
      else attributes
    | none => attributes
  else if method == "tools/call" then
    match jsGetOpt result.data "tool" with
    | some v => if jsTruthy v then jsObjSet attributes "mcp.tool_name" v else attributes
    | none => attributes
  else if method == "resources/read" then
    match jsGetOpt result.data "uri" with
    | some v => if jsTruthy v then jsObjSet attributes "mcp.resource_uri" v else attributes
    | none => attributes
  else if method == "prompts/get" then
    match jsGetOpt result.data "name" with
    | some v => if jsTruthy v then jsObjSet attributes "mcp.prompt_name" v else attributes
    | none => attributes
  else attributes

/-- `MCPTracker.startMCPSpan(method, context)`.  The external tracer is
modelled deterministically: the created span's correlation ids are
derived from the operation id; the request-start event's timestamp is
the operation's start time (both are `Date.now()` within the same
handler turn). -/
def startMCPSpan (cfg : TrackerConfig) (method : String) (context : MCPOperationContext)
    (st : TrackerState) : Span × TrackerState :=
  let startAttrs : List (String × JVal) :=
    [("mcp.operation_id", .str context.operationId),
     ("mcp.method", .str method),
     ("mcp.start_time", .num context.startTime)]
    ++ (match cfg.projectId with
        | some pid => [("neonflare.project_id", .str pid)]
        | none => [])
    ++ cfg.defaultAttributes
    ++ (match context.metadata.requestId with
        | some rid => [("mcp.request_id", .str rid)]
        | none => [])
    ++ (match context.metadata.aiContext with
        | some c => [("mcp.tool.ai_context", .str c)]
        | none => [])
  let span : Span :=
    { name := "mcp." ++ method
      attributes := setAttributesOn [] startAttrs
      status := .unset
      spanContext := { traceId := "trace_" ++ context.operationId
                       spanId := "span_" ++ context.operationId } }
  let st := { st with activeSpans := mapSet st.activeSpans context.operationId span }
  let st := addTelemetryEvent st
    { type := .request_start
      timestamp := context.startTime
      data := { operationId := context.operationId, method := some method
                metadata := some context.metadata, projectId := cfg.projectId }
      spanContext := some span.spanContext }
  (span, st)

/-- `MCPTracker.endMCPSpan(operationId, result)`. -/
def endMCPSpan (cfg : TrackerConfig) (operationId : String) (result : MCPMethodResult)
    (st : TrackerState) : TrackerState :=
  match st.activeSpans.lookup operationId with
  | none => st
  | some span =>
    let attributes : List (String × JVal) :=
      [("mcp.method", .str (extractMethodFromOperationId operationId)),
       ("mcp.success", .bool result.success),
       ("mcp.duration_ms", .num result.duration)]
    -- if (!result.success && result.error) { error attrs + ERROR status } else OK
    let attrStatus : List (String × JVal) × SpanStatus :=
      match result.error with
      | some err =>
        if !result.success then
          (jsObjSet (jsObjSet attributes "mcp.error_code" err.code)
            "mcp.error_message" (.str err.message),
           SpanStatus.error err.message)
        else (attributes, SpanStatus.ok)
      | none => (attributes, SpanStatus.ok)
    let attributes := addMethodSpecificAttributes attrStatus.1 operationId result
    let endedSpan : Span :=
      { span with attributes := setAttributesOn span.attributes attributes
                  status := attrStatus.2 }
    let st := { st with activeSpans := mapDel st.activeSpans operationId
                        endedSpans := st.endedSpans ++ [(operationId, endedSpan)] }
    addTelemetryEvent st
      { type := .request_end
        timestamp := result.timestamp
        data := { operationId := operationId, success := some result.success
                  duration := some result.duration, error := result.error
                  projectId := cfg.projectId }
        spanContext := some span.spanContext }

/-- The metrics snapshot (`methodMetrics`, which the tracker returns as
a constant empty record, is omitted). -/
structure MetricsSnapshot where
  totalRequests : Nat
  successfulRequests : Nat
  failedRequests : Nat
  averageDuration : ℚ
  requestsPerSecond : ℚ
  activeSessions : Nat

/-- Truthiness of `e.data.success` (the source filters with `&&
e.data.success`). -/
def eventSuccessTruthy (e : TelemetryEvent) : Bool :=
  match e.data.success with
  | some b => b
  | none => false

/-- Truthiness of `e.data.duration` (the source filters with `&&
e.data.duration`, so a recorded duration of `0` does not count). -/
def eventDurationTruthy (e : TelemetryEvent) : Bool :=
  match e.data.duration with
  | some d => decide (d ≠ 0)
  | none => false

/-- `MCPTracker.calculateAverageDuration()`. -/
def calculateAverageDuration (st : TrackerState) : ℚ :=
  let completedRequests := st.telemetryEvents.filter fun e =>
    decide (e.type = .request_end) && eventDurationTruthy e
  if completedRequests.length = 0 then 0
  else
    ((completedRequests.map fun e => (e.data.duration).getD 0).sum) / completedRequests.length

/-- `MCPTracker.calculateRequestsPerSecond()` at current time `now`. -/
def calculateRequestsPerSecond (now : ℚ) (st : TrackerState) : ℚ :=
  (((st.telemetryEvents.filter fun e =>
      decide (e.type = .request_end) && decide (now - e.timestamp < 60000)).length : ℚ)) / 60

/-- `MCPTracker.getCurrentMetrics()` at current time `now`. -/
def getCurrentMetrics (now : ℚ) (st : TrackerState) : MetricsSnapshot :=
  { totalRequests := (st.telemetryEvents.filter fun e =>
      decide (e.type = .request_end)).length
    successfulRequests := (st.telemetryEvents.filter fun e =>
      decide (e.type = .request_end) && eventSuccessTruthy e).length
    failedRequests := (st.telemetryEvents.filter fun e =>
      decide (e.type = .request_end) && !eventSuccessTruthy e).length
    averageDuration := calculateAverageDuration st
    requestsPerSecond := calculateRequestsPerSecond now st
    activeSessions := st.activeSpans.length }

/-- An instrumentation hook: three optional callbacks.  A callback's
invocation on the fixed payload is modelled by its `Except` result,
`.error msg` standing for a thrown exception. -/
structure InstrumentationHook where
  beforeMethod : Option (MCPOperationContext → MCPMethodCall → Except String Unit) := none
  afterMethod : Option (MCPOperationContext → MCPMethodResult → Except String Unit) := none
  onError : Option (MCPOperationContext → JSError → Except String Unit) := none

/-- Shared loop of the three hook executors: walk the hooks in
registration order from position `i`; invoke each defined callback; a
thrown error is caught and logged as a warning, and iteration
continues.  Returns the positions invoked (in order) and the warnings
logged; nothing propagates to the caller. -/
def execHooksFrom (call : InstrumentationHook → Option (Except String Unit)) :
    List InstrumentationHook → Nat → List Nat × List (Nat × String)
  | [], _ => ([], [])
  | h :: t, i =>
    let rest := execHooksFrom call t (i + 1)
    match call h with
    | none => rest
    | some (.ok _) => (i :: rest.1, rest.2)
    | some (.error msg) => (i :: rest.1, (i, msg) :: rest.2)

/-- `MCPTracker.executeBeforeHooks(context, methodCall)`. -/
def executeBeforeHooks (hooks : List InstrumentationHook) (context : MCPOperationContext)
    (methodCall : MCPMethodCall) : List Nat × List (Nat × String) :=
  execHooksFrom (fun h => h.beforeMethod.map fun f => f context methodCall) hooks 0

/-- `MCPTracker.executeAfterHooks(context, result)`. -/
def executeAfterHooks (hooks : List InstrumentationHook) (context : MCPOperationContext)
    (result : MCPMethodResult) : List Nat × List (Nat × String) :=
  execHooksFrom (fun h => h.afterMethod.map fun f => f context result) hooks 0

/-- `MCPTracker.executeErrorHooks(context, error)`. -/
def executeErrorHooks (hooks : List InstrumentationHook) (context : MCPOperationContext)
    (err : JSError) : List Nat × List (Nat × String) :=
  execHooksFrom (fun h => h.onError.map fun f => f context err) hooks 0

/-! ## Server-wrapping facade (`index.ts`, `wrapServerMethods`) -/

/-- An inbound request as the wrapped handler sees it (`request.id`,
`request.params`). -/
structure Request where
  id : Option String := none
  params : Option JVal := none

/-- An error thrown by the original handler; the wrapper reads
`error.code || 'HANDLER_ERROR'` and `error.message || 'Handler
execution failed'`. -/
structure HandlerError where
  code : Option JVal := none
  message : Option String := none

/-- Outcome of one wrapped-handler invocation. -/
inductive WrapResult where
  | ok (v : JVal)
  | handlerThrew (e : HandlerError)
  | crashed

/-- Observables of one wrapped-handler invocation: the final tracker
state, the value returned / error re-thrown, and the exact request the
original handler was invoked with (`none` when the handler was never
reached). -/
structure WrapOutcome where
  finalState : TrackerState
  result : WrapResult
  handlerInput : Option Request

/-- `span.setAttributes` on the live span registered under
`operationId` (the wrapped handler holds the span reference returned by
`startMCPSpan`; it is registered under the fresh operation id). -/
def setSpanAttributesOnActive (st : TrackerState) (operationId : String)
    (attrs : List (String × JVal)) : TrackerState :=
  match st.activeSpans.lookup operationId with
  | none => st
  | some span =>
    let span' : Span := { span with attributes := setAttributesOn span.attributes attrs }
    { st with activeSpans := mapSet st.activeSpans operationId span' }

/-- The wrapped handler `wrapServerMethods` installs for a method: one
invocation on `req`, from tracker state `st`, with the generated
operation id and the start/end clock readings passed explicitly.  The
original `handler` is modelled by its result on the request it
receives.  When the tool-call branch reads a truthy non-string
`context` value, `aiContext.substring(0, 200)` raises a native
`TypeError` before the `try` block: the invocation rejects with the
span still open (`WrapResult.crashed`). -/
def wrappedHandler (cfg : TrackerConfig) (method : String)
    (handler : Request → Except HandlerError JVal) (req : Request)
    (operationId : String) (startTime endTime : ℚ) (st : TrackerState) : WrapOutcome :=
  -- const requestId = request.id || `req_${Date.now()}`
  let requestId : String :=
    match req.id with
    | some s => if s ≠ "" then s else "req_" ++ toString startTime
    | none => "req_" ++ toString startTime
  let context := createOperationContext method (some requestId) req.params operationId startTime
  let spanSt := startMCPSpan cfg method context st
  let st1 := spanSt.2
  -- request.params?.arguments?.context
  let ctxVal : Option JVal := jsGetOpt (jsGetOpt req.params "arguments") "context"
  let aiBranch : Bool := method == "tools/call" && (ctxVal.map jsTruthy).getD false
  if aiBranch && !(ctxVal.map jsIsString).getD false then
    { finalState := st1, result := .crashed, handlerInput := none }
  else
    let st2 :=
      if aiBranch then
        match ctxVal with
        | some (.str s) =>
          setSpanAttributesOnActive st1 context.operationId
            [("mcp.tool.ai_context", .str s),
             ("mcp.tool.ai_intent", .str (String.mk (s.toList.take 200)))]
        | _ => st1
      else st1
    -- if (config?.projectId) span.setAttributes({ 'neonflare.project_id': ... })
    let st3 :=
      match cfg.projectId with
      | some pid =>
        if pid ≠ "" then
          setSpanAttributesOnActive st2 context.operationId
            [("neonflare.project_id", .str pid)]
        else st2
      | none => st2
    match handler req with
    | .ok resultv =>
      let st4 := endMCPSpan cfg context.operationId
        { success := true, data := some resultv
          duration := endTime - startTime, timestamp := endTime } st3
      { finalState := st4, result := .ok resultv, handlerInput := some req }
    | .error e =>
      let errCode : JVal :=
        match e.code with
        | some c => if jsTruthy c then c else .str "HANDLER_ERROR"
        | none => .str "HANDLER_ERROR"
      let errMsg : String :=
        match e.message with
        | some m => if m ≠ "" then m else "Handler execution failed"
        | none => "Handler execution failed"
      let st4 := endMCPSpan cfg context.operationId
        { success := false
          error := some { code := errCode, message := errMsg }
          duration := endTime - startTime, timestamp := endTime } st3
      { finalState := st4, result := .handlerThrew e, handlerInput := some req }

/-! ## Composite telemetry provider (`telemetry/providers.ts`) -/

/-- A child provider as the composite observes it: the runtime
interface checks (`'getMetrics' in p`, `'getEvents' in p`), the values
the query methods currently return, and the behavior of `recordEvent`
on an event (`.error` models a throw). -/
structure ChildProvider where
  recordEventFn : TelemetryEvent → Except String Unit
  hasGetMetrics : Bool := true
  metrics : MetricsSnapshot
  hasGetEvents : Bool := true
  events : List TelemetryEvent

/-- Loop of `compositeRecordEvent`. -/
def compositeRecordGo (event : TelemetryEvent) :
    List ChildProvider → Nat → List (Nat × Bool)
  | [], _ => []
  | p :: t, i =>
    (match p.recordEventFn event with
     | .ok _ => (i, false)
     | .error _ => (i, true)) :: compositeRecordGo event t (i + 1)

/-- `CompositeTelemetryProvider.recordEvent(event)`: deliver the event
to every child in order; a child's throw is caught and logged as a
warning.  Returns, per child in order, its position and whether it
threw. -/
def compositeRecordEvent (providers : List ChildProvider) (event : TelemetryEvent) :
    List (Nat × Bool) :=
  compositeRecordGo event providers 0

/-- The all-zero snapshot the composite returns with no
metrics-exposing children. -/
def zeroMetrics : MetricsSnapshot :=
  { totalRequests := 0, successfulRequests := 0, failedRequests := 0
    averageDuration := 0, requestsPerSecond := 0, activeSessions := 0 }

/-- `CompositeTelemetryProvider.getMetrics()`. -/
def compositeGetMetrics (providers : List ChildProvider) : MetricsSnapshot :=
  let metrics := (providers.filter (·.hasGetMetrics)).map (·.metrics)
  if metrics.length = 0 then zeroMetrics
  else
    { totalRequests := (metrics.map (·.totalRequests)).sum
      successfulRequests := (metrics.map (·.successfulRequests)).sum
      failedRequests := (metrics.map (·.failedRequests)).sum
      averageDuration := (metrics.map (·.averageDuration)).sum / metrics.length
      requestsPerSecond := (metrics.map (·.requestsPerSecond)).sum / metrics.length
      activeSessions := (metrics.map (·.activeSessions)).sum }

/-- The (timestamp, type) key equality the dedupe filter uses. -/
def sameEventKey (a b : TelemetryEvent) : Bool :=
  decide (a.timestamp = b.timestamp) && decide (a.type = b.type)

/-- First-occurrence dedupe by (timestamp, type): an event is kept
exactly when no earlier event shares its key — the behavior of the
source's `filter((e, i, self) => i === self.findIndex(...))` idiom. -/
def dedupeByKey : List TelemetryEvent → List TelemetryEvent
  | [] => []
  | e :: t => e :: dedupeByKey (t.filter fun x => !sameEventKey x e)
termination_by l => l.length
decreasing_by
  simpa using Nat.lt_succ_of_le (List.length_filter_le _ t)

/-- The ascending-timestamp comparator (`(a, b) => a.timestamp -
b.timestamp`). -/
def eventLeTimestamp (a b : TelemetryEvent) : Bool :=
  decide (a.timestamp ≤ b.timestamp)

/-- The merged raw event list (`flatMap` over the events-exposing
children). -/
def compositeAllEvents (providers : List ChildProvider) : List TelemetryEvent :=
  ((providers.filter (·.hasGetEvents)).map (·.events)).flatten

/-- `CompositeTelemetryProvider.getEvents()`: merge the events of every
events-exposing child, dedupe by (timestamp, type), sort ascending by
timestamp (JavaScript's sort is stable; `mergeSort` is the stable
sort). -/
def compositeGetEvents (providers : List ChildProvider) : List TelemetryEvent :=
  (dedupeByKey (compositeAllEvents providers)).mergeSort eventLeTimestamp

/-! ## Derived accessors and claim-side definitions used in statements -/

/-- Attribute of the ended span recorded under an operation id (how the
theorems observe what `span.setAttributes`/`span.end` published). -/
def endedSpanAttr (st : TrackerState) (operationId key : String) : Option JVal :=
  match st.endedSpans.lookup operationId with
  | some sp => sp.attributes.lookup key
  | none => none

/-- The request-end telemetry event `endMCPSpan` appends for a
completed operation with duration `d` and success flag `succ` (only the
fields `getCurrentMetrics` reads are populated; the others do not
affect any metric). -/
def requestEndEvent (operationId : String) (d : ℚ) (succ : Bool) (ts : ℚ) : TelemetryEvent :=
  { type := .request_end
    timestamp := ts
    data := { operationId := operationId, success := some succ, duration := some d } }

/-- A tracker state after the completed operations described by
`l = [(d₁, succ₁), ...]` (one request-end event each, timestamps by
position; no other events, no open spans). -/
def stateOfResults (l : List (ℚ × Bool)) : TrackerState :=
  { telemetryEvents := l.enum.map fun p =>
      requestEndEvent ("op_" ++ toString p.1) p.2.1 p.2.2 (p.1 : ℚ) }

/-- Modelled from the spec: `mean(d1..dN)` over **all** recorded
durations, as claim C4 words the average. -/
def claimMeanDuration (l : List (ℚ × Bool)) : ℚ :=
  (l.map (·.1)).sum / l.length

/-- Schemas on which the source's property assignments are defined
without a runtime `TypeError`: an object whose `properties` field (if
present and truthy) is an object and whose `required` field (if present
and truthy) is an array. -/
def schemaWellFormed (s : JVal) : Bool :=
  (match s with | .obj _ => true | _ => false) &&
  (match jsGet s "properties" with
   | some p => !jsTruthy p || (match p with | .obj _ => true | _ => false)
   | none => true) &&
  (match jsGet s "required" with
   | some r => !jsTruthy r || (match r with | .arr _ => true | _ => false)
   | none => true)

/-- The `properties` map of a schema value (empty when absent or not an
object). -/
def propertiesOf (v : Option JVal) : List (String × JVal) :=
  match v with
  | some s =>
    match jsGet s "properties" with
    | some (.obj ps) => ps
    | _ => []
  | none => []

/-- The `required` array of a schema value (empty when absent or not an
array). -/
def requiredOf (v : Option JVal) : List JVal :=
  match v with
  | some s =>
    match jsGet s "required" with
    | some (.arr xs) => xs
    | _ => []
  | none => []

/-- An input schema that already declares a (number-typed) `context`
property, used to exercise `injectContextIntoSchema` on a name
collision. -/
def schemaWithContext : JVal :=
  .obj [("type", .str "object"),
        ("properties", .obj [("context", .obj [("type", .str "number")])])]

/-- An ordinary tool input schema (one `query` property, no `required`
list), used as a concrete witness input. -/
def sampleToolSchema : JVal :=
  .obj [("type", .str "object"),
        ("properties", .obj [("query", .obj [("type", .str "string")])])]

/-- `(timestamp, type)` key sharing as a proposition. -/
def sameKeyProp (a b : TelemetryEvent) : Prop :=
  a.timestamp = b.timestamp ∧ a.type = b.type

/-- The wrapped handler's optional project-id attribute step (the
`if (config?.projectId)` branch), named so lemmas can quantify over
the configured project id. -/
def optionalProjStep (o : Option String) (opId : String) (st : TrackerState) : TrackerState :=
  match o with
  | some pid =>
    if pid = "" then st
    else setSpanAttributesOnActive st opId [("neonflare.project_id", .str pid)]
  | none => st

/-- A concrete request-end event at a given timestamp (witness input). -/
def sampleEvent (t : ℚ) : TelemetryEvent :=
  { type := .request_end, timestamp := t, data := { operationId := "op" } }

/-- A concrete metrics snapshot (witness input). -/
def sampleMetrics (n : Nat) (d : ℚ) : MetricsSnapshot :=
  { totalRequests := n, successfulRequests := n, failedRequests := 0
    averageDuration := d, requestsPerSecond := d, activeSessions := 0 }

/-- A concrete tools/call request whose arguments carry an intent
field (`context`) next to an ordinary parameter. -/
def rawReq : Request :=
  { id := some "r1"
    params := some (.obj [("name", .str "widget"),
      ("arguments", .obj [("context", .str "because"), ("query", .str "x")])]) }

/-- A tools/list operation driven through `startMCPSpan` and
`endMCPSpan` with two tools in the result payload — the input the
method-specific enrichment is supposed to act on. -/
def toolsListScenario : TrackerState :=
  endMCPSpan {} "op_1"
    { success := true
      data := some (.obj [("tools", .arr [.obj [], .obj []])])
      duration := 5
      timestamp := 100 }
    ((startMCPSpan {} "tools/list"
      (createOperationContext "tools/list" none none "op_1" 0) {}).2)

/-- Two concrete child providers — the second one's `recordEvent`
throws — with overlapping event logs (witness input). -/
def sampleProviders : List ChildProvider :=
  [{ recordEventFn := fun _ => .ok ()
     metrics := sampleMetrics 2 4
     events := [sampleEvent 3, sampleEvent 1] },
   { recordEventFn := fun _ => .error "sink down"
     metrics := sampleMetrics 4 2
     events := [sampleEvent 1, sampleEvent 2] }]

/-! ## Association-list lemmas -/

theorem lookup_mapSet_self {α β : Type} [BEq α] [LawfulBEq α] [DecidableEq α]
    (m : List (α × β)) (k : α) (v : β) : (mapSet m k v).lookup k = some v := by
  induction m with
  | nil => simp [mapSet, List.lookup]
  | cons p t ih =>
    obtain ⟨k', v'⟩ := p
    by_cases h : k' = k
    · subst h
      simp [mapSet, List.lookup]
    · have hb : (k == k') = false := beq_eq_false_iff_ne.mpr (Ne.symm h)
      simp [mapSet, h, List.lookup, hb, ih]

theorem lookup_mapSet_ne {α β : Type} [BEq α] [LawfulBEq α] [DecidableEq α]
    (m : List (α × β)) (k k' : α) (v : β) (hk : k' ≠ k) :
    (mapSet m k v).lookup k' = m.lookup k' := by
  have hb : (k' == k) = false := beq_eq_false_iff_ne.mpr hk
  induction m with
  | nil => simp [mapSet, List.lookup, hb]
  | cons p t ih =>
    obtain ⟨ka, va⟩ := p
    by_cases h : ka = k
    · subst h
      simp [mapSet, List.lookup, hb]
    · cases hba : k' == ka with
      | true => simp [mapSet, h, List.lookup, hba]
      | false => simp [mapSet, h, List.lookup, hba, ih]

theorem lookup_filter_ne_key {α β : Type} [BEq α] [LawfulBEq α] [DecidableEq α]
    (l : List (α × β)) (k : α) :
    (l.filter fun p => decide (p.1 ≠ k)).lookup k = none := by
  induction l with
  | nil => rfl
  | cons p t ih =>
    obtain ⟨ka, va⟩ := p
    by_cases h : ka = k
    · subst h
      simpa using ih
    · have hb : (k == ka) = false := beq_eq_false_iff_ne.mpr (Ne.symm h)
      simp [h, List.lookup, hb, ih]
      exact fun a b _ hne => Ne.symm hne

theorem lookup_mapDel_self {α β : Type} [BEq α] [LawfulBEq α] [DecidableEq α]
    (m : List (α × β)) (k : α) : (mapDel m k).lookup k = none :=
  lookup_filter_ne_key m k

theorem setAttributesOn_nil (base : List (String × JVal)) :
    setAttributesOn base [] = base := rfl

theorem setAttributesOn_cons (base : List (String × JVal)) (p : String × JVal)
    (t : List (String × JVal)) :
    setAttributesOn base (p :: t) = setAttributesOn (jsObjSet base p.1 p.2) t := rfl

/-- A key absent from the assigned attributes is untouched by
`setAttributesOn`. -/
theorem lookup_setAttributesOn_of_none (attrs : List (String × JVal)) :
    ∀ (base : List (String × JVal)) (k : String), attrs.lookup k = none →
      (setAttributesOn base attrs).lookup k = base.lookup k := by
  induction attrs with
  | nil => intro base k _; rfl
  | cons p t ih =>
    intro base k hk
    obtain ⟨ka, va⟩ := p
    cases hba : k == ka with
    | true => simp [List.lookup, hba] at hk
    | false =>
      have hk' : t.lookup k = none := by
        simpa [List.lookup, hba] using hk
      rw [setAttributesOn_cons]
      rw [ih _ k hk']
      exact lookup_mapSet_ne base ka k va (beq_eq_false_iff_ne.mp hba)

/-- `addTelemetryEvent` only touches the event log. -/
theorem addTelemetryEvent_activeSpans (st : TrackerState) (e : TelemetryEvent) :
    (addTelemetryEvent st e).activeSpans = st.activeSpans := rfl

theorem addTelemetryEvent_endedSpans (st : TrackerState) (e : TelemetryEvent) :
    (addTelemetryEvent st e).endedSpans = st.endedSpans := rfl

/-! ## C3 — ending an absent operation is a silent no-op; double end -/

/-- C3: `endMCPSpan` with an operation id absent from the live-span map
returns the state unchanged (no event appended, nothing thrown), and a
second `endMCPSpan` on the same operation id after a first one is a
no-op: the first call removes the key, so the repeated call changes
nothing (in particular it appends no second request-end event). -/
theorem endMCPSpan_absent_noop_and_idempotent (cfg : TrackerConfig) (st : TrackerState)
    (operationId : String) (result result' : MCPMethodResult) :
    (st.activeSpans.lookup operationId = none →
      endMCPSpan cfg operationId result st = st) ∧
    endMCPSpan cfg operationId result'
      (endMCPSpan cfg operationId result st) = endMCPSpan cfg operationId result st := by
  have hnone : ∀ (st' : TrackerState) (r : MCPMethodResult),
      st'.activeSpans.lookup operationId = none → endMCPSpan cfg operationId r st' = st' := by
    intro st' r h
    unfold endMCPSpan
    rw [h]
  refine ⟨hnone st result, ?_⟩
  cases h : st.activeSpans.lookup operationId with
  | none =>
    rw [hnone st result h, hnone st result' h]
  | some span =>
    apply hnone
    unfold endMCPSpan
    rw [h]
    simp only [addTelemetryEvent_activeSpans]
    exact lookup_mapDel_self st.activeSpans operationId

/-- Witness for C3: from the empty tracker state, ending an unknown
operation returns the state unchanged. -/
theorem endMCPSpan_absent_noop_witness :
    endMCPSpan {} "op_1" { success := true, duration := 5, timestamp := 100 }
      ({} : TrackerState) = ({} : TrackerState) :=
  (endMCPSpan_absent_noop_and_idempotent {} {} "op_1"
    { success := true, duration := 5, timestamp := 100 }
    { success := true, duration := 5, timestamp := 100 }).1 rfl

/-! ## C5 — hooks run in registration order, failures contained -/

theorem execHooksFrom_invoked (call : InstrumentationHook → Option (Except String Unit)) :
    ∀ (hooks : List InstrumentationHook) (i : Nat),
      (execHooksFrom call hooks i).1 =
        ((List.enumFrom i hooks).filter fun p => (call p.2).isSome).map (·.1) := by
  intro hooks
  induction hooks with
  | nil => intro i; rfl
  | cons h t ih =>
    intro i
    cases hc : call h with
    | none => simp [execHooksFrom, List.enumFrom, hc, ih]
    | some r => cases r <;> simp [execHooksFrom, List.enumFrom, hc, ih]

theorem execHooksFrom_warnings (call : InstrumentationHook → Option (Except String Unit)) :
    ∀ (hooks : List InstrumentationHook) (i : Nat),
      (execHooksFrom call hooks i).2 =
        (List.enumFrom i hooks).filterMap fun p =>
          match call p.2 with
          | some (.error m) => some (p.1, m)
          | _ => none := by
  intro hooks
  induction hooks with
  | nil => intro i; rfl
  | cons h t ih =>
    intro i
    cases hc : call h with
    | none => simp [execHooksFrom, List.enumFrom, hc, ih]
    | some r => cases r <;> simp [execHooksFrom, List.enumFrom, hc, ih]

/-- C5: each of the three hook executors invokes exactly the hooks
whose corresponding callback is defined, in registration order — the
positions invoked are the enumeration of the hook list filtered to the
defined callbacks, independent of which callbacks throw — and every
thrown exception is converted into a logged warning (the executors
return plainly; by the `try`/`catch` around each callback no hook
failure reaches the caller). -/
theorem hooks_run_in_order_and_failures_contained
    (hooks : List InstrumentationHook) (context : MCPOperationContext)
    (methodCall : MCPMethodCall) (result : MCPMethodResult) (err : JSError) :
    (executeBeforeHooks hooks context methodCall).1 =
      ((hooks.enum.filter fun p => p.2.beforeMethod.isSome).map (·.1)) ∧
    (executeAfterHooks hooks context result).1 =
      ((hooks.enum.filter fun p => p.2.afterMethod.isSome).map (·.1)) ∧
    (executeErrorHooks hooks context err).1 =
      ((hooks.enum.filter fun p => p.2.onError.isSome).map (·.1)) ∧
    (executeBeforeHooks hooks context methodCall).2 =
      (hooks.enum.filterMap fun p =>
        match p.2.beforeMethod with
        | some f =>
          match f context methodCall with
          | .error m => some (p.1, m)
          | .ok _ => none
        | none => none) ∧
    (executeAfterHooks hooks context result).2 =
      (hooks.enum.filterMap fun p =>
        match p.2.afterMethod with
        | some f =>
          match f context result with
          | .error m => some (p.1, m)
          | .ok _ => none
        | none => none) ∧
    (executeErrorHooks hooks context err).2 =
      (hooks.enum.filterMap fun p =>
        match p.2.onError with
        | some f =>
          match f context err with
          | .error m => some (p.1, m)
          | .ok _ => none
        | none => none) := by
  refine ⟨?_, ?_, ?_, ?_, ?_, ?_⟩
  · rw [executeBeforeHooks, execHooksFrom_invoked, List.enum]
    congr 1
    apply List.filter_congr
    intro p _
    cases hp : p.2.beforeMethod <;> simp [hp]
  · rw [executeAfterHooks, execHooksFrom_invoked, List.enum]
    congr 1
    apply List.filter_congr
    intro p _
    cases hp : p.2.afterMethod <;> simp [hp]
  · rw [executeErrorHooks, execHooksFrom_invoked, List.enum]
    congr 1
    apply List.filter_congr
    intro p _
    cases hp : p.2.onError <;> simp [hp]
  · rw [executeBeforeHooks, execHooksFrom_warnings, List.enum]
    apply List.filterMap_congr
    intro p _
    cases hp : p.2.beforeMethod with
    | none => simp [hp]
    | some f => cases hf : f context methodCall <;> simp [hp, hf]
  · rw [executeAfterHooks, execHooksFrom_warnings, List.enum]
    apply List.filterMap_congr
    intro p _
    cases hp : p.2.afterMethod with
    | none => simp [hp]
    | some f => cases hf : f context result <;> simp [hp, hf]
  · rw [executeErrorHooks, execHooksFrom_warnings, List.enum]
    apply List.filterMap_congr
    intro p _
    cases hp : p.2.onError with
    | none => simp [hp]
    | some f => cases hf : f context err <;> simp [hp, hf]

/-! ## C6 — ordered classification of non-normalized errors -/

/-- C6 counterexample: the claim says the taxonomy type is assigned by
ordered substring matching on the **message** with unmatched messages
classified internal-error; but an error named `TimeoutError` whose
message matches no keyword is classified timeout by the source. -/
theorem convertToMCPError_not_message_only :
    (convertToMCPError { name := "TimeoutError", message := "boom" }).etype =
      MCPErrorType.timeout ∧
    claimMessageOnlyClassify "boom" = MCPErrorType.internal_error ∧
    MCPErrorType.timeout ≠ MCPErrorType.internal_error :=
  ⟨rfl, rfl, by decide⟩

/-- C6 (amended): the classifier applies the ordered rule list —
timeout (message contains `timeout` **or** the error name is
`TimeoutError`), then connection/ECONNREFUSED, then
authentication/unauthorized, then permission/forbidden, then
`not found` — first match wins, everything else is internal-error; in
particular `"not found: widget"` is classified resource-not-found. -/
theorem convertToMCPError_ordered_first_match (e : JSError) :
    (convertToMCPError e).etype = amendedClassify e ∧
    (convertToMCPError { name := "Error", message := "not found: widget" }).etype =
      MCPErrorType.resource_not_found := by
  constructor
  · unfold convertToMCPError amendedClassify
    split_ifs <;> rfl
  · rfl

/-! ## C10 — non-string intent values are silently discarded -/

/-- C10: a non-string value stored under the configured intent property
is discarded by `processToolArguments` — the extracted context is
`none` while the property is nevertheless removed from the cleaned
arguments — and on any input that is not a truthy `typeof 'object'`
value (null, primitives) `extractContextFromArgs` returns `undefined`
and `stripContextFromArgs` returns the input unchanged, neither
throwing. -/
theorem processToolArguments_discards_nonstring_intent
    (cfg : ContextInjectionConfig) (args : JVal) (pname : String) :
    (∀ v, jsGet args cfg.parameterName = some v → jsIsString v = false →
      (processToolArguments cfg args).context = none ∧
      jsGet (processToolArguments cfg args).cleanedArgs cfg.parameterName = none) ∧
    (¬ (jsTruthy args = true ∧ jsTypeofObject args = true) →
      extractContextFromArgs args pname = none ∧
      stripContextFromArgs args pname = args) := by
  constructor
  · intro v hget hstr
    cases args with
    | obj fs =>
      constructor
      · simp only [processToolArguments, extractContextFromArgs, jsTruthy, jsTypeofObject]
        rw [hget]
        cases v <;> simp_all [jsIsString]
      · simp only [processToolArguments, stripContextFromArgs, jsTruthy, jsTypeofObject,
          Bool.not_true, Bool.or_self, Bool.false_or, if_neg]
        exact lookup_filter_ne_key fs cfg.parameterName
    | arr xs =>
      constructor
      · simp only [processToolArguments, extractContextFromArgs, jsTruthy, jsTypeofObject]
        rw [hget]
        cases v <;> simp_all [jsIsString]
      · simp only [processToolArguments, stripContextFromArgs, jsTruthy, jsTypeofObject]
        exact lookup_filter_ne_key _ cfg.parameterName
    | null => simp [jsGet] at hget
    | bool b => simp [jsGet] at hget
    | num q => simp [jsGet] at hget
    | str s => simp [jsGet] at hget
  · intro hno
    have hguard : (!jsTruthy args || !jsTypeofObject args) = true := by
      cases ht : jsTruthy args <;> cases hb : jsTypeofObject args <;> simp_all
    constructor
    · simp [extractContextFromArgs, hguard]
    · simp [stripContextFromArgs, hguard]

/-- Witness for C10: a numeric `context` value is neither extracted nor
forwarded; a primitive argument value passes through both helpers. -/
theorem processToolArguments_discards_nonstring_witness :
    (processToolArguments {} (.obj [("context", .num 5), ("x", .str "y")])).context = none ∧
    jsGet (processToolArguments {} (.obj [("context", .num 5), ("x", .str "y")])).cleanedArgs
      "context" = none ∧
    extractContextFromArgs (.num 3) "context" = none ∧
    stripContextFromArgs (.num 3) "context" = .num 3 := by
  have h := processToolArguments_discards_nonstring_intent {}
    (.obj [("context", .num 5), ("x", .str "y")]) "context"
  have h1 := h.1 (.num 5) rfl rfl
  have h2 := (processToolArguments_discards_nonstring_intent {} (.num 3) "context").2
    (by simp [jsTruthy, jsTypeofObject])
  exact ⟨h1.1, h1.2, h2.1, h2.2⟩

/-! ## C4 — metrics arithmetic over completed operations -/

theorem map_filter_enum_snd {α β : Type} (l : List α) (q : α → Bool) (g : α → β) :
    ((l.enum.filter fun p => q p.2).map fun p => g p.2) = (l.filter q).map g := by
  calc ((l.enum.filter fun p => q p.2).map fun p => g p.2)
      = ((l.enum.filter (q ∘ Prod.snd)).map Prod.snd).map g := by
        rw [List.map_map]
        rfl
    _ = ((l.enum.map Prod.snd).filter q).map g := by rw [← List.filter_map]
    _ = (l.filter q).map g := by rw [List.enum_map_snd]

theorem length_filter_enum_snd {α : Type} (l : List α) (q : α → Bool) :
    (l.enum.filter fun p => q p.2).length = (l.filter q).length := by
  have h := congrArg List.length (map_filter_enum_snd l q (fun a => a))
  simpa using h

/-- Filtering the mapped request-end events agrees (in length) with
filtering the raw `(duration, success)` pairs, whenever the event
predicate agrees pointwise with a pair predicate. -/
theorem length_filter_eventMap (l : List (ℚ × Bool)) (pred : TelemetryEvent → Bool)
    (q : ℚ × Bool → Bool)
    (hq : ∀ p : ℕ × ℚ × Bool,
      pred (requestEndEvent ("op_" ++ toString p.1) p.2.1 p.2.2 (p.1 : ℚ)) = q p.2) :
    ((l.enum.map fun p =>
      requestEndEvent ("op_" ++ toString p.1) p.2.1 p.2.2 (p.1 : ℚ)).filter pred).length =
      (l.filter q).length := by
  rw [List.filter_map, List.length_map]
  calc _ = (l.enum.filter fun p => q p.2).length := by
        congr 1
        exact List.filter_congr (fun a _ => hq a)
    _ = (l.filter q).length := length_filter_enum_snd l q

/-- Sum version of `length_filter_eventMap` for the recorded
durations. -/
theorem sumdur_filter_eventMap (l : List (ℚ × Bool)) (pred : TelemetryEvent → Bool)
    (q : ℚ × Bool → Bool)
    (hq : ∀ p : ℕ × ℚ × Bool,
      pred (requestEndEvent ("op_" ++ toString p.1) p.2.1 p.2.2 (p.1 : ℚ)) = q p.2) :
    (((l.enum.map fun p =>
      requestEndEvent ("op_" ++ toString p.1) p.2.1 p.2.2 (p.1 : ℚ)).filter pred).map fun e =>
        (e.data.duration).getD 0).sum =
      ((l.filter q).map fun p => p.1).sum := by
  rw [List.filter_map, List.map_map]
  calc _ = ((l.enum.filter fun p => q p.2).map fun p => p.2.1).sum := by
        exact congrArg List.sum (congrArg _ (List.filter_congr (fun a _ => hq a)))
    _ = ((l.filter q).map fun p => p.1).sum :=
      congrArg List.sum (map_filter_enum_snd l q (fun a => a.1))

/-- C4 counterexample: with completed durations `[0, 4]` the source's
average (which filters on truthy `e.data.duration`, dropping the zero)
is `4`, while the claimed `mean(d1..dN)` is `2`. -/
theorem metrics_average_ignores_zero_durations :
    (getCurrentMetrics 0 (stateOfResults [(0, true), (4, true)])).averageDuration = 4 ∧
    claimMeanDuration [(0, true), (4, true)] = 2 ∧
    (4 : ℚ) ≠ 2 := by
  refine ⟨?_, ?_, by norm_num⟩
  · show calculateAverageDuration (stateOfResults [(0, true), (4, true)]) = 4
    norm_num [calculateAverageDuration, stateOfResults, requestEndEvent,
      eventDurationTruthy, List.enum, List.enumFrom]
  · norm_num [claimMeanDuration]

/-- C4 (amended): after the completed operations `l = [(d.i, succ.i)]`
(and no other events), `totalRequests` is `N`, `successfulRequests` /
`failedRequests` split on the success flags, and `averageDuration` is
the mean of the **nonzero** recorded durations (`0` when all recorded
durations are zero or `N = 0`), zero durations being excluded by the
truthiness filter. -/
theorem metrics_of_completed_operations (l : List (ℚ × Bool)) (now : ℚ) :
    (getCurrentMetrics now (stateOfResults l)).totalRequests = l.length ∧
    (getCurrentMetrics now (stateOfResults l)).successfulRequests =
      (l.filter fun p => p.2).length ∧
    (getCurrentMetrics now (stateOfResults l)).failedRequests =
      (l.filter fun p => !p.2).length ∧
    (getCurrentMetrics now (stateOfResults l)).averageDuration =
      ((l.filter fun p => decide (p.1 ≠ 0)).map fun p => p.1).sum /
        (((l.filter fun p => decide (p.1 ≠ 0)).length : ℚ)) := by
  have hf : (stateOfResults l).telemetryEvents =
      l.enum.map fun p => requestEndEvent ("op_" ++ toString p.1) p.2.1 p.2.2 (p.1 : ℚ) := rfl
  refine ⟨?_, ?_, ?_, ?_⟩
  · show ((stateOfResults l).telemetryEvents.filter fun e =>
      decide (e.type = .request_end)).length = l.length
    rw [hf, length_filter_eventMap l (fun e => decide (e.type = .request_end))
      (fun _ => true) (fun _ => rfl)]
    simp
  · show ((stateOfResults l).telemetryEvents.filter fun e =>
      decide (e.type = .request_end) && eventSuccessTruthy e).length =
        (l.filter fun p => p.2).length
    rw [hf, length_filter_eventMap l
      (fun e => decide (e.type = .request_end) && eventSuccessTruthy e)
      (fun p => p.2) (fun _ => rfl)]
  · show ((stateOfResults l).telemetryEvents.filter fun e =>
      decide (e.type = .request_end) && !eventSuccessTruthy e).length =
        (l.filter fun p => !p.2).length
    rw [hf, length_filter_eventMap l
      (fun e => decide (e.type = .request_end) && !eventSuccessTruthy e)
      (fun p => !p.2) (fun _ => rfl)]
  · show calculateAverageDuration (stateOfResults l) = _
    simp only [calculateAverageDuration]
    rw [hf, length_filter_eventMap l
      (fun e => decide (e.type = .request_end) && eventDurationTruthy e)
      (fun p => decide (p.1 ≠ 0)) (fun _ => rfl),
      sumdur_filter_eventMap l
      (fun e => decide (e.type = .request_end) && eventDurationTruthy e)
      (fun p => decide (p.1 ≠ 0)) (fun _ => rfl)]
    by_cases hz : (l.filter fun p => decide (p.1 ≠ 0)).length = 0
    · rw [if_pos hz, hz]
      rw [List.length_eq_zero.mp hz]
      simp
    · rw [if_neg hz]

/-! ## C7 — error-storm statistics -/

set_option maxRecDepth 8000 in
/-- C7 counterexample: (a) errors of one type at times `0, 50000,
70000` (window 60000 ms): the third error is only 20 s after the
second, so the claim's last-seen rule increments to 3, but the source —
which never advances `lastErrorTime` on the increment path — measures
70000 ms from the stored timestamp and resets the count to 1; (b) 11
rapid errors of one type: the claim demands exactly one storm warning,
but the source warns whenever the count is at or above the threshold —
twice (at counts 10 and 11). -/
theorem errorStorm_counterexample :
    ((runErrorSeq [(.timeout, 0), (.timeout, 50000), (.timeout, 70000)]
      {}).1.errorCounts.lookup MCPErrorType.timeout) = some 1 ∧
    (claimStormRun 60000 10 [0, 50000, 70000]).1 = 3 ∧
    (1 : Nat) ≠ 3 ∧
    (runErrorSeq [(.timeout, 0), (.timeout, 1), (.timeout, 2), (.timeout, 3), (.timeout, 4),
      (.timeout, 5), (.timeout, 6), (.timeout, 7), (.timeout, 8), (.timeout, 9),
      (.timeout, 10)] {}).2 = 2 ∧
    (claimStormRun 60000 10 [0, 1, 2, 3, 4, 5, 6, 7, 8, 9, 10]).2 = 1 ∧
    (2 : Nat) ≠ 1 := by
  refine ⟨?_, ?_, by decide, ?_, ?_, by decide⟩
  · norm_num [runErrorSeq, updateErrorStats, isErrorStorm, mapGetD, mapSet, List.lookup]
  · norm_num [claimStormRun, claimStormGo, claimStormStep]
  · norm_num [runErrorSeq, updateErrorStats, isErrorStorm, mapGetD, mapSet, List.lookup]
  · norm_num [claimStormRun, claimStormGo, claimStormStep]

/-- C7 (amended): per handled error, the count of the error's type is
reset to 1 (and the stored timestamp advanced to `now`) exactly when
the elapsed time since the **stored timestamp** — which marks the start
of the current window, being updated only on reset — exceeds the
window, and is incremented (timestamp untouched) otherwise; the storm
warning fires at **every** handled error whose post-update count
reaches or exceeds the threshold; the error returned to the caller is
the handled error itself, unchanged by the storm state. -/
theorem errorStorm_step_spec (st : ErrorHandlerState) (err : MCPError) (now : ℚ) :
    (handleErrorMCP err now st).1 = err ∧
    (handleErrorMCP err now st).2.1.errorThreshold = st.errorThreshold ∧
    (handleErrorMCP err now st).2.1.timeWindow = st.timeWindow ∧
    mapGetD (handleErrorMCP err now st).2.1.errorCounts err.etype 0 =
      (if now - mapGetD st.lastErrorTime err.etype 0 > st.timeWindow then 1
       else mapGetD st.errorCounts err.etype 0 + 1) ∧
    mapGetD (handleErrorMCP err now st).2.1.lastErrorTime err.etype 0 =
      (if now - mapGetD st.lastErrorTime err.etype 0 > st.timeWindow then now
       else mapGetD st.lastErrorTime err.etype 0) ∧
    (handleErrorMCP err now st).2.2 =
      decide (st.errorThreshold ≤
        mapGetD (handleErrorMCP err now st).2.1.errorCounts err.etype 0) := by
  unfold handleErrorMCP updateErrorStats isErrorStorm
  by_cases h : st.timeWindow < now - (st.lastErrorTime.lookup err.etype).getD 0
  · simp [h, mapGetD, lookup_mapSet_self]
  · simp [h, mapGetD, lookup_mapSet_self]

/-! ## C8 — schema injection -/

theorem length_mapSet {α β : Type} [BEq α] [LawfulBEq α] [DecidableEq α]
    (m : List (α × β)) (k : α) (v : β) :
    (mapSet m k v).length = if (m.lookup k).isSome then m.length else m.length + 1 := by
  induction m with
  | nil => simp [mapSet, List.lookup]
  | cons p t ih =>
    obtain ⟨ka, va⟩ := p
    by_cases h : ka = k
    · subst h
      simp [mapSet, List.lookup]
    · have hb : (k == ka) = false := beq_eq_false_iff_ne.mpr (Ne.symm h)
      simp only [mapSet, if_neg h, List.length_cons, List.lookup, hb, ih]
      by_cases hs : (t.lookup k).isSome <;> simp [hs]

/-- C8 counterexample: on a schema that already declares a `context`
property, `injectContextIntoSchema` under the default (enabled) config
overwrites it in place — the result has the same number of properties
as the input (1), not one more (2) as the claim's "exactly one
additional property" requires. -/
theorem injectContextIntoSchema_overwrites_existing :
    (propertiesOf (injectContextIntoSchema (some schemaWithContext) {})).length = 1 ∧
    (propertiesOf (some schemaWithContext)).length = 1 ∧
    (propertiesOf (injectContextIntoSchema (some schemaWithContext) {})).lookup "context" =
      some (contextProperty ({} : ContextInjectionConfig).description) ∧
    (1 : Nat) ≠ 1 + 1 :=
  ⟨rfl, rfl, rfl, by decide⟩

/-- C8 (amended): with `enabled` false the input schema itself is
returned (identity); a nullish schema yields the synthesized minimal
schema; otherwise (enabled, truthy, well-formed input) the result's
`properties` carry the parameter as a string-typed property — added as
exactly one additional property when the name was absent, overwritten
in place (property count unchanged) when already present — all other
properties are preserved, and when `config.required` is true the
parameter name is appended to the `required` list (created if absent,
not duplicated if already there), the list being untouched when
`config.required` is false.  (The source never mutates its input: it
patches a `JSON` deep copy, which the pure embedding renders as value
construction.) -/
theorem injectContextIntoSchema_spec (schema : Option JVal) (cfg : ContextInjectionConfig) :
    (cfg.enabled = false → injectContextIntoSchema schema cfg = schema) ∧
    (cfg.enabled = true → injectContextIntoSchema none cfg = some (synthesizedSchema cfg)) ∧
    (∀ s : JVal, schema = some s → cfg.enabled = true → jsTruthy s = true →
      schemaWellFormed s = true →
      ((propertiesOf (injectContextIntoSchema schema cfg)).lookup cfg.parameterName =
        some (contextProperty cfg.description) ∧
      (propertiesOf (injectContextIntoSchema schema cfg)).length =
        (if ((propertiesOf schema).lookup cfg.parameterName).isSome
         then (propertiesOf schema).length
         else (propertiesOf schema).length + 1) ∧
      (∀ k, k ≠ cfg.parameterName →
        (propertiesOf (injectContextIntoSchema schema cfg)).lookup k =
          (propertiesOf schema).lookup k) ∧
      (cfg.required = true →
        requiredOf (injectContextIntoSchema schema cfg) =
          (if jsArrIncludesStr (.arr (requiredOf schema)) cfg.parameterName
           then requiredOf schema
           else requiredOf schema ++ [.str cfg.parameterName])) ∧
      (cfg.required = false →
        requiredOf (injectContextIntoSchema schema cfg) = requiredOf schema))) := by
  refine ⟨?_, ?_, ?_⟩
  · intro hene
    simp [injectContextIntoSchema, hene]
  · intro hen
    simp [injectContextIntoSchema, hen]
  · intro s hs hen htr hwf
    subst hs
    cases s with
    | null => simp [schemaWellFormed] at hwf
    | bool b => simp [schemaWellFormed] at hwf
    | num q => simp [schemaWellFormed] at hwf
    | str t => simp [schemaWellFormed] at hwf
    | arr xs => simp [schemaWellFormed] at hwf
    | obj fs =>
      -- normalized `properties` object and its relation to `propertiesOf`
      have hps : ∃ ps : List (String × JVal),
          (match jsGet (JVal.obj fs) "properties" with
           | some p => if jsTruthy p then p else JVal.obj []
           | none => JVal.obj []) = JVal.obj ps ∧
          propertiesOf (some (JVal.obj fs)) = ps := by
        cases hp : fs.lookup "properties" with
        | none => exact ⟨[], by simp [jsGet, hp], by simp [propertiesOf, jsGet, hp]⟩
        | some p =>
          cases p with
          | obj ps => exact ⟨ps, by simp [jsGet, hp, jsTruthy], by simp [propertiesOf, jsGet, hp]⟩
          | null => exact ⟨[], by simp [jsGet, hp, jsTruthy], by simp [propertiesOf, jsGet, hp]⟩
          | bool b =>
            cases b with
            | false => exact ⟨[], by simp [jsGet, hp, jsTruthy], by simp [propertiesOf, jsGet, hp]⟩
            | true => simp [schemaWellFormed, jsGet, hp, jsTruthy] at hwf
          | num q =>
            by_cases hq : q = 0
            · subst hq
              exact ⟨[], by simp [jsGet, hp, jsTruthy], by simp [propertiesOf, jsGet, hp]⟩
            · simp [schemaWellFormed, jsGet, hp, jsTruthy, hq] at hwf
          | str t =>
            by_cases ht : t = ""
            · subst ht
              exact ⟨[], by simp [jsGet, hp, jsTruthy], by simp [propertiesOf, jsGet, hp]⟩
            · simp [schemaWellFormed, jsGet, hp, jsTruthy, ht] at hwf
          | arr xs => simp [schemaWellFormed, jsGet, hp, jsTruthy] at hwf
      obtain ⟨ps, hpse, hpsOf⟩ := hps
      -- normalized `required` array and its relation to `requiredOf`
      have hrs : ∃ rs : List JVal,
          (match jsGet (JVal.obj fs) "required" with
           | some r => if jsTruthy r then r else JVal.arr []
           | none => JVal.arr []) = JVal.arr rs ∧
          requiredOf (some (JVal.obj fs)) = rs := by
        cases hr : fs.lookup "required" with
        | none => exact ⟨[], by simp [jsGet, hr], by simp [requiredOf, jsGet, hr]⟩
        | some r =>
          cases r with
          | arr xs => exact ⟨xs, by simp [jsGet, hr, jsTruthy], by simp [requiredOf, jsGet, hr]⟩
          | null => exact ⟨[], by simp [jsGet, hr, jsTruthy], by simp [requiredOf, jsGet, hr]⟩
          | bool b =>
            cases b with
            | false => exact ⟨[], by simp [jsGet, hr, jsTruthy], by simp [requiredOf, jsGet, hr]⟩
            | true => simp [schemaWellFormed, jsGet, hr, jsTruthy] at hwf
          | num q =>
            by_cases hq : q = 0
            · subst hq
              exact ⟨[], by simp [jsGet, hr, jsTruthy], by simp [requiredOf, jsGet, hr]⟩
            · simp [schemaWellFormed, jsGet, hr, jsTruthy, hq] at hwf
          | str t =>
            by_cases ht : t = ""
            · subst ht
              exact ⟨[], by simp [jsGet, hr, jsTruthy], by simp [requiredOf, jsGet, hr]⟩
            · simp [schemaWellFormed, jsGet, hr, jsTruthy, ht] at hwf
          | obj l => simp [schemaWellFormed, jsGet, hr, jsTruthy] at hwf
      obtain ⟨rs, hrse, hrsOf⟩ := hrs
      have hne : ("required" : String) ≠ "properties" := by decide
      have hne' : ("properties" : String) ≠ "required" := by decide
      -- compute the result in each `required` branch
      by_cases hreq : cfg.required
      · have hres : injectContextIntoSchema (some (JVal.obj fs)) cfg =
            some (.obj (mapSet (mapSet fs "properties"
              (.obj (mapSet ps cfg.parameterName (contextProperty cfg.description))))
              "required"
              (if jsArrIncludesStr (.arr rs) cfg.parameterName then .arr rs
               else .arr (rs ++ [.str cfg.parameterName])))) := by
          simp only [injectContextIntoSchema, hen, Bool.not_true, Bool.false_eq_true,
            if_false, htr, hreq, if_true]
          rw [hpse]
          simp only [jsSetProp, jsObjSet]
          have : jsGet (JVal.obj (mapSet fs "properties"
              (.obj (mapSet ps cfg.parameterName (contextProperty cfg.description)))))
              "required" = fs.lookup "required" := by
            simp only [jsGet]
            exact lookup_mapSet_ne fs "properties" "required" _ hne
          rw [this]
          have hrw : (match fs.lookup "required" with
              | some r => if jsTruthy r then r else JVal.arr []
              | none => JVal.arr []) = JVal.arr rs := by
            simpa [jsGet] using hrse
          rw [hrw]
          cases hin : jsArrIncludesStr (.arr rs) cfg.parameterName <;>
            simp [hin, jsArrPush, jsSetProp, jsObjSet]
        rw [hres]
        have hpropsOf : propertiesOf (some (JVal.obj (mapSet (mapSet fs "properties"
            (.obj (mapSet ps cfg.parameterName (contextProperty cfg.description))))
            "required"
            (if jsArrIncludesStr (.arr rs) cfg.parameterName then .arr rs
             else .arr (rs ++ [.str cfg.parameterName]))))) =
            mapSet ps cfg.parameterName (contextProperty cfg.description) := by
          simp only [propertiesOf, jsGet]
          rw [lookup_mapSet_ne _ "required" "properties" _ hne',
            lookup_mapSet_self]
        refine ⟨?_, ?_, ?_, ?_, ?_⟩
        · rw [hpropsOf, lookup_mapSet_self]
        · rw [hpropsOf, length_mapSet, hpsOf]
        · intro k hk
          rw [hpropsOf, lookup_mapSet_ne _ _ _ _ hk, hpsOf]
        · intro _
          rw [hrsOf]
          simp only [requiredOf, jsGet]
          rw [lookup_mapSet_self]
          cases hin : jsArrIncludesStr (.arr rs) cfg.parameterName <;> simp [hin]
        · intro hreqf
          rw [hreqf] at hreq
          exact absurd hreq (by simp)
      · have hreqf : cfg.required = false := by simpa using hreq
        have hres : injectContextIntoSchema (some (JVal.obj fs)) cfg =
            some (.obj (mapSet fs "properties"
              (.obj (mapSet ps cfg.parameterName (contextProperty cfg.description))))) := by
          simp only [injectContextIntoSchema, hen, Bool.not_true, Bool.false_eq_true,
            if_false, htr, hreqf]
          rw [hpse]
          simp [jsSetProp, jsObjSet]
        rw [hres]
        have hpropsOf : propertiesOf (some (JVal.obj (mapSet fs "properties"
            (.obj (mapSet ps cfg.parameterName (contextProperty cfg.description)))))) =
            mapSet ps cfg.parameterName (contextProperty cfg.description) := by
          simp only [propertiesOf, jsGet]
          rw [lookup_mapSet_self]
        refine ⟨?_, ?_, ?_, ?_, ?_⟩
        · rw [hpropsOf, lookup_mapSet_self]
        · rw [hpropsOf, length_mapSet, hpsOf]
        · intro k hk
          rw [hpropsOf, lookup_mapSet_ne _ _ _ _ hk, hpsOf]
        · intro hreqt
          rw [hreqt] at hreqf
          exact absurd hreqf (by simp)
        · intro _
          simp only [requiredOf, jsGet]
          rw [lookup_mapSet_ne _ "properties" "required" _ hne]

/-- Witness for C8: injecting a required context parameter into a
schema with one `query` property and no `required` list adds exactly
one string-typed property and creates `required := ["context"]`. -/
theorem injectContextIntoSchema_spec_witness :
    (propertiesOf (injectContextIntoSchema (some sampleToolSchema)
      { required := true })).lookup "context" =
      some (contextProperty ({ required := true } : ContextInjectionConfig).description) ∧
    (propertiesOf (injectContextIntoSchema (some sampleToolSchema)
      { required := true })).length =
      (propertiesOf (some sampleToolSchema)).length + 1 ∧
    requiredOf (injectContextIntoSchema (some sampleToolSchema) { required := true }) =
      [.str "context"] := by
  have h := (injectContextIntoSchema_spec (some sampleToolSchema)
    { required := true }).2.2 sampleToolSchema rfl rfl rfl rfl
  exact ⟨h.1, (h.2.1).trans (by rfl), ((h.2.2.2.1 rfl)).trans (by rfl)⟩

/-! ## C9 — composite telemetry provider -/

theorem sameEventKey_iff (a b : TelemetryEvent) :
    sameEventKey a b = true ↔ sameKeyProp a b := by
  simp [sameEventKey, sameKeyProp]

theorem sameKeyProp_symm {a b : TelemetryEvent} (h : sameKeyProp a b) : sameKeyProp b a :=
  ⟨h.1.symm, h.2.symm⟩

theorem dedupeByKey_subset : ∀ (l : List TelemetryEvent), dedupeByKey l ⊆ l := by
  intro l
  induction l using dedupeByKey.induct with
  | case1 =>
    rw [dedupeByKey]
    exact fun x hx => hx
  | case2 e t ih =>
    rw [dedupeByKey]
    intro x hx
    rcases List.mem_cons.mp hx with h | h
    · simp [h]
    · exact List.mem_cons_of_mem e (List.mem_of_mem_filter (ih h))

theorem dedupeByKey_pairwise : ∀ (l : List TelemetryEvent),
    (dedupeByKey l).Pairwise fun a b => ¬ sameKeyProp a b := by
  intro l
  induction l using dedupeByKey.induct with
  | case1 =>
    rw [dedupeByKey]
    exact List.Pairwise.nil
  | case2 e t ih =>
    rw [dedupeByKey]
    refine List.Pairwise.cons ?_ ih
    intro b hb hk
    have hbf : b ∈ t.filter fun x => !sameEventKey x e := dedupeByKey_subset _ hb
    have hne : (!sameEventKey b e) = true := (List.mem_filter.mp hbf).2
    have : sameEventKey b e = true := (sameEventKey_iff b e).mpr (sameKeyProp_symm hk)
    simp [this] at hne

theorem dedupeByKey_covers : ∀ (l : List TelemetryEvent), ∀ x ∈ l,
    ∃ y ∈ dedupeByKey l, sameKeyProp y x := by
  intro l
  induction l using dedupeByKey.induct with
  | case1 =>
    intro x hx
    simp at hx
  | case2 e t ih =>
    intro x hx
    rw [dedupeByKey]
    rcases List.mem_cons.mp hx with h | h
    · subst h
      exact ⟨x, List.mem_cons_self _ _, ⟨rfl, rfl⟩⟩
    · by_cases hk : sameEventKey x e = true
      · exact ⟨e, List.mem_cons_self _ _, sameKeyProp_symm ((sameEventKey_iff x e).mp hk)⟩
      · have hxf : x ∈ t.filter fun y => !sameEventKey y e :=
          List.mem_filter.mpr ⟨h, by simp [hk]⟩
        obtain ⟨y, hy, hxy⟩ := ih x hxf
        exact ⟨y, List.mem_cons_of_mem _ hy, hxy⟩

theorem compositeRecordGo_spec (event : TelemetryEvent) :
    ∀ (l : List ChildProvider) (i : Nat),
      compositeRecordGo event l i = (List.enumFrom i l).map fun p =>
        (p.1, match p.2.recordEventFn event with
              | .ok _ => false
              | .error _ => true) := by
  intro l
  induction l with
  | nil => intro i; rfl
  | cons c t ih =>
    intro i
    cases hc : c.recordEventFn event <;>
      simp [compositeRecordGo, List.enumFrom, hc, ih]

/-- C9: the composite provider (a) delivers a recorded event to every
child in registration order, a child's throw being caught and noted as
a warning without stopping delivery to the remaining children; (b)
returns from `getEvents` a list sorted by timestamp, holding no two
events with the same (timestamp, type) key, drawn from the children's
merged events and covering every merged event's key; and (c) under
`getMetrics` sums `totalRequests` / `successfulRequests` /
`failedRequests` (and `activeSessions`) over the metrics-exposing
children while dividing the sums of the children's already-computed
`averageDuration` and `requestsPerSecond` by the number of
metrics-exposing children. -/
theorem composite_provider_spec (providers : List ChildProvider) (event : TelemetryEvent) :
    compositeRecordEvent providers event = providers.enum.map (fun p =>
      (p.1, match p.2.recordEventFn event with
            | .ok _ => false
            | .error _ => true)) ∧
    (compositeGetEvents providers).Pairwise (fun a b => a.timestamp ≤ b.timestamp) ∧
    (compositeGetEvents providers).Pairwise (fun a b => ¬ sameKeyProp a b) ∧
    (∀ e ∈ compositeAllEvents providers,
      ∃ y ∈ compositeGetEvents providers, sameKeyProp y e) ∧
    (∀ e ∈ compositeGetEvents providers, e ∈ compositeAllEvents providers) ∧
    ((providers.filter (fun p => p.hasGetMetrics)).length ≠ 0 →
      compositeGetMetrics providers =
        { totalRequests := ((providers.filter (fun p => p.hasGetMetrics)).map fun p =>
            p.metrics.totalRequests).sum
          successfulRequests := ((providers.filter (fun p => p.hasGetMetrics)).map fun p =>
            p.metrics.successfulRequests).sum
          failedRequests := ((providers.filter (fun p => p.hasGetMetrics)).map fun p =>
            p.metrics.failedRequests).sum
          averageDuration := (((providers.filter (fun p => p.hasGetMetrics)).map fun p =>
            p.metrics.averageDuration).sum) /
            (((providers.filter (fun p => p.hasGetMetrics)).length : ℚ))
          requestsPerSecond := (((providers.filter (fun p => p.hasGetMetrics)).map fun p =>
            p.metrics.requestsPerSecond).sum) /
            (((providers.filter (fun p => p.hasGetMetrics)).length : ℚ))
          activeSessions := ((providers.filter (fun p => p.hasGetMetrics)).map fun p =>
            p.metrics.activeSessions).sum }) := by
  have htrans : ∀ a b c : TelemetryEvent, eventLeTimestamp a b = true →
      eventLeTimestamp b c = true → eventLeTimestamp a c = true := by
    intro a b c hab hbc
    simp only [eventLeTimestamp, decide_eq_true_eq] at hab hbc ⊢
    exact le_trans hab hbc
  have htotal : ∀ a b : TelemetryEvent,
      (eventLeTimestamp a b || eventLeTimestamp b a) = true := by
    intro a b
    simp only [eventLeTimestamp, Bool.or_eq_true, decide_eq_true_eq]
    exact le_total a.timestamp b.timestamp
  have hperm := List.mergeSort_perm (dedupeByKey (compositeAllEvents providers)) eventLeTimestamp
  refine ⟨?_, ?_, ?_, ?_, ?_, ?_⟩
  · rw [compositeRecordEvent, compositeRecordGo_spec]
    rfl
  · have hs := List.sorted_mergeSort htrans htotal
      (dedupeByKey (compositeAllEvents providers))
    exact hs.imp (by
      intro a b h
      simpa [eventLeTimestamp] using h)
  · exact (hperm.pairwise_iff
      (fun h hk => h (sameKeyProp_symm hk))).mpr (dedupeByKey_pairwise _)
  · intro e he
    obtain ⟨y, hy, hk⟩ := dedupeByKey_covers _ e he
    exact ⟨y, hperm.mem_iff.mpr hy, hk⟩
  · intro e he
    exact dedupeByKey_subset _ (hperm.mem_iff.mp he)
  · intro h
    simp only [compositeGetMetrics]
    rw [if_neg (by simpa using h)]
    simp only [List.map_map, List.length_map, MetricsSnapshot.mk.injEq]
    exact ⟨rfl, rfl, rfl, rfl, rfl, rfl⟩

/-- Witness for C9: two concrete children — the second one's
`recordEvent` throws — still both receive the event in order; the
merged event list covers the key of an event only the second child
holds; and the aggregated metrics sum counts and average the averaged
fields. -/
theorem composite_provider_spec_witness :
    compositeRecordEvent sampleProviders (sampleEvent 0) = [(0, false), (1, true)] ∧
    (∃ y ∈ compositeGetEvents sampleProviders, sameKeyProp y (sampleEvent 2)) ∧
    compositeGetMetrics sampleProviders =
      { totalRequests := 6, successfulRequests := 6, failedRequests := 0
        averageDuration := 3, requestsPerSecond := 3, activeSessions := 0 } := by
  have h := composite_provider_spec sampleProviders (sampleEvent 0)
  refine ⟨(h.1).trans (by rfl), ?_, ?_⟩
  · exact h.2.2.2.1 (sampleEvent 2) (by simp [compositeAllEvents, sampleProviders])
  · have h6 := h.2.2.2.2.2 (by simp [sampleProviders])
    exact h6.trans (by norm_num [sampleProviders, sampleMetrics])

/-! ## C1 — the facade's wrapped handler and argument cleaning -/

theorem getLast?_append_singleton {α : Type} (l : List α) (a : α) :
    (l ++ [a]).getLast? = some a := by
  induction l with
  | nil => rfl
  | cons x t ih =>
    cases t with
    | nil => rfl
    | cons y t' =>
      simp only [List.cons_append, List.getLast?_cons_cons]
      simpa using ih

theorem startMCPSpan_snd_activeSpans (cfg : TrackerConfig) (method : String)
    (context : MCPOperationContext) (st : TrackerState) :
    (startMCPSpan cfg method context st).2.activeSpans =
      mapSet st.activeSpans context.operationId (startMCPSpan cfg method context st).1 := rfl

theorem startMCPSpan_snd_endedSpans (cfg : TrackerConfig) (method : String)
    (context : MCPOperationContext) (st : TrackerState) :
    (startMCPSpan cfg method context st).2.endedSpans = st.endedSpans := rfl

theorem setSpanAttributesOnActive_endedSpans (st : TrackerState) (operationId : String)
    (attrs : List (String × JVal)) :
    (setSpanAttributesOnActive st operationId attrs).endedSpans = st.endedSpans := by
  unfold setSpanAttributesOnActive
  cases h : st.activeSpans.lookup operationId <;> rfl

theorem setSpanAttributesOnActive_lookup (st : TrackerState) (operationId : String)
    (attrs : List (String × JVal)) (sp : Span)
    (h : st.activeSpans.lookup operationId = some sp) :
    (setSpanAttributesOnActive st operationId attrs).activeSpans.lookup operationId =
      some { sp with attributes := setAttributesOn sp.attributes attrs } := by
  unfold setSpanAttributesOnActive
  rw [h]
  exact lookup_mapSet_self st.activeSpans operationId _

/-- The source's `extractMethodFromOperationId` stub returns
`'unknown'`, so the method-specific switch never adds anything. -/
theorem addMethodSpecificAttributes_unknown (attrs : List (String × JVal))
    (operationId : String) (result : MCPMethodResult) :
    addMethodSpecificAttributes attrs operationId result = attrs := rfl

/-- Ending a live span appends it to the ended-span log with the end
attributes merged on top; no end attribute uses the `mcp.tool.*` keys
(the method-specific switch is dead, see
`addMethodSpecificAttributes_unknown`). -/
theorem endMCPSpan_found (cfg : TrackerConfig) (operationId : String)
    (r : MCPMethodResult) (st : TrackerState) (sp : Span)
    (h : st.activeSpans.lookup operationId = some sp) :
    ∃ attrs' : List (String × JVal), ∃ status' : SpanStatus,
      (endMCPSpan cfg operationId r st).endedSpans =
        st.endedSpans ++ [(operationId,
          { sp with attributes := setAttributesOn sp.attributes attrs'
                    status := status' })] ∧
      attrs'.lookup "mcp.tool.ai_context" = none ∧
      attrs'.lookup "mcp.tool.ai_intent" = none := by
  unfold endMCPSpan
  rw [h]
  cases hre : r.error with
  | none =>
    refine ⟨[("mcp.method", .str (extractMethodFromOperationId operationId)),
      ("mcp.success", .bool r.success), ("mcp.duration_ms", .num r.duration)],
      .ok, ?_, rfl, rfl⟩
    simp [addTelemetryEvent, addMethodSpecificAttributes_unknown]
  | some err =>
    cases hrs : r.success with
    | true =>
      refine ⟨[("mcp.method", .str (extractMethodFromOperationId operationId)),
        ("mcp.success", .bool true), ("mcp.duration_ms", .num r.duration)],
        .ok, ?_, rfl, rfl⟩
      simp [addTelemetryEvent, addMethodSpecificAttributes_unknown]
    | false =>
      refine ⟨jsObjSet (jsObjSet
        [("mcp.method", .str (extractMethodFromOperationId operationId)),
         ("mcp.success", .bool false), ("mcp.duration_ms", .num r.duration)]
        "mcp.error_code" err.code) "mcp.error_message" (.str err.message),
        .error err.message, ?_, ?_, ?_⟩
      · simp [addTelemetryEvent, addMethodSpecificAttributes_unknown]
      · rw [jsObjSet, jsObjSet, lookup_mapSet_ne _ _ _ _ (by decide),
          lookup_mapSet_ne _ _ _ _ (by decide)]
        rfl
      · rw [jsObjSet, jsObjSet, lookup_mapSet_ne _ _ _ _ (by decide),
          lookup_mapSet_ne _ _ _ _ (by decide)]
        rfl

/-- The span registered by `startMCPSpan` is found under the
operation id. -/
theorem startMCPSpan_lookup (cfg : TrackerConfig) (method : String)
    (context : MCPOperationContext) (st : TrackerState) :
    ((startMCPSpan cfg method context st).2.activeSpans).lookup context.operationId =
      some (startMCPSpan cfg method context st).1 := by
  rw [startMCPSpan_snd_activeSpans]
  exact lookup_mapSet_self _ _ _

/-- Setting the two AI-intent attributes on the live span makes them
readable on it. -/
theorem lookup_after_ai_set (st : TrackerState) (opId : String) (v w : JVal) (sp : Span)
    (h : st.activeSpans.lookup opId = some sp) :
    ∃ sp', (setSpanAttributesOnActive st opId
        [("mcp.tool.ai_context", v), ("mcp.tool.ai_intent", w)]).activeSpans.lookup opId =
          some sp' ∧
      sp'.attributes.lookup "mcp.tool.ai_context" = some v ∧
      sp'.attributes.lookup "mcp.tool.ai_intent" = some w := by
  refine ⟨_, setSpanAttributesOnActive_lookup st opId _ sp h, ?_, ?_⟩
  · show (setAttributesOn sp.attributes
      [("mcp.tool.ai_context", v), ("mcp.tool.ai_intent", w)]).lookup "mcp.tool.ai_context" =
        some v
    rw [show setAttributesOn sp.attributes
        [("mcp.tool.ai_context", v), ("mcp.tool.ai_intent", w)] =
      jsObjSet (jsObjSet sp.attributes "mcp.tool.ai_context" v) "mcp.tool.ai_intent" w from rfl]
    rw [jsObjSet, jsObjSet, lookup_mapSet_ne _ _ _ _ (by decide)]
    exact lookup_mapSet_self _ _ _
  · show (setAttributesOn sp.attributes
      [("mcp.tool.ai_context", v), ("mcp.tool.ai_intent", w)]).lookup "mcp.tool.ai_intent" =
        some w
    rw [show setAttributesOn sp.attributes
        [("mcp.tool.ai_context", v), ("mcp.tool.ai_intent", w)] =
      jsObjSet (jsObjSet sp.attributes "mcp.tool.ai_context" v) "mcp.tool.ai_intent" w from rfl]
    rw [jsObjSet]
    exact lookup_mapSet_self _ _ _

/-- The optional project-id attribute step keeps every other attribute
of the live span readable. -/
theorem lookup_after_optional_proj (st : TrackerState) (opId : String) (o : Option String)
    (sp : Span) (h : st.activeSpans.lookup opId = some sp) :
    ∃ sp', (optionalProjStep o opId st).activeSpans.lookup opId = some sp' ∧
      ∀ k, k ≠ "neonflare.project_id" →
        sp'.attributes.lookup k = sp.attributes.lookup k := by
  cases o with
  | none => exact ⟨sp, h, fun k _ => rfl⟩
  | some pid =>
    show ∃ sp', (if pid = "" then st
        else setSpanAttributesOnActive st opId
          [("neonflare.project_id", .str pid)]).activeSpans.lookup opId = some sp' ∧
      ∀ k, k ≠ "neonflare.project_id" →
        sp'.attributes.lookup k = sp.attributes.lookup k
    by_cases hp : pid = ""
    · rw [if_pos hp]
      exact ⟨sp, h, fun k _ => rfl⟩
    · rw [if_neg hp]
      refine ⟨{ sp with attributes :=
          setAttributesOn sp.attributes ([("neonflare.project_id", .str pid)]) },
        setSpanAttributesOnActive_lookup st opId _ sp h, ?_⟩
      intro k hk
      show (setAttributesOn sp.attributes [("neonflare.project_id", .str pid)]).lookup k =
        sp.attributes.lookup k
      rw [show setAttributesOn sp.attributes [("neonflare.project_id", .str pid)] =
        jsObjSet sp.attributes "neonflare.project_id" (.str pid) from rfl]
      rw [jsObjSet]
      exact lookup_mapSet_ne _ _ _ _ hk

/-- Ending the operation publishes the live span (with the end
attributes merged) as the newest ended span, the AI-intent attributes
surviving the merge. -/
theorem endMCPSpan_preserves_ai (cfg : TrackerConfig) (opId : String) (r : MCPMethodResult)
    (st : TrackerState) (sp : Span) (v w : JVal)
    (h : st.activeSpans.lookup opId = some sp)
    (h1 : sp.attributes.lookup "mcp.tool.ai_context" = some v)
    (h2 : sp.attributes.lookup "mcp.tool.ai_intent" = some w) :
    ∃ spf : Span, (endMCPSpan cfg opId r st).endedSpans.getLast? = some (opId, spf) ∧
      spf.attributes.lookup "mcp.tool.ai_context" = some v ∧
      spf.attributes.lookup "mcp.tool.ai_intent" = some w := by
  obtain ⟨attrs', status', heq, hn1, hn2⟩ := endMCPSpan_found cfg opId r st sp h
  refine ⟨{ sp with attributes := setAttributesOn sp.attributes attrs', status := status' },
    ?_, ?_, ?_⟩
  · rw [heq]
    exact getLast?_append_singleton _ _
  · show (setAttributesOn sp.attributes attrs').lookup "mcp.tool.ai_context" = some v
    rw [lookup_setAttributesOn_of_none attrs' _ _ hn1]
    exact h1
  · show (setAttributesOn sp.attributes attrs').lookup "mcp.tool.ai_intent" = some w
    rw [lookup_setAttributesOn_of_none attrs' _ _ hn2]
    exact h2

/-- C1 counterexample: a tools/call request whose arguments hold the
intent field `context` is forwarded to the original handler **as is**
— the handler receives the raw request, whose arguments still contain
`context`, although `processToolArguments` would have removed it; the
wrapping path never invokes the cleaning helper. -/
theorem wrappedHandler_forwards_raw_arguments :
    (wrappedHandler {} "tools/call" (fun _ => .ok (.str "done")) rawReq
      "op_1" 0 5 {}).handlerInput = some rawReq ∧
    jsGetOpt (jsGetOpt rawReq.params "arguments") "context" = some (.str "because") ∧
    jsGet (processToolArguments {}
      ((jsGetOpt rawReq.params "arguments").getD .null)).cleanedArgs "context" = none ∧
    some (JVal.str "because") ≠ (none : Option JVal) := by
  refine ⟨rfl, rfl, rfl, by simp⟩

/-- C1 (amended): the wrapped handler does **not** clean tool-call
arguments (`processToolArguments` is never invoked on this path): the
original handler is always invoked with exactly the raw request,
including any intent field; the handler's result or thrown error
passes through unchanged; and when a tools/call request carries a
truthy string `context` value the ended span's attributes hold it as
`mcp.tool.ai_context` in full and as `mcp.tool.ai_intent` truncated to
200 characters.  (A truthy non-string `context` value would crash the
wrapper before the handler runs; the hypothesis excludes it.) -/
theorem wrappedHandler_raw_passthrough_and_intent_attrs
    (cfg : TrackerConfig) (method : String)
    (handler : Request → Except HandlerError JVal) (req : Request)
    (operationId : String) (t0 t1 : ℚ) (st : TrackerState)
    (hctx : ∀ v, jsGetOpt (jsGetOpt req.params "arguments") "context" = some v →
      jsTruthy v = true → jsIsString v = true) :
    (wrappedHandler cfg method handler req operationId t0 t1 st).handlerInput = some req ∧
    (wrappedHandler cfg method handler req operationId t0 t1 st).result =
      (match handler req with
       | .ok v => WrapResult.ok v
       | .error e => WrapResult.handlerThrew e) ∧
    (∀ s : String, method = "tools/call" →
      jsGetOpt (jsGetOpt req.params "arguments") "context" = some (.str s) → s ≠ "" →
      ∃ sp : Span,
        (wrappedHandler cfg method handler req operationId t0 t1 st).finalState.endedSpans.getLast?
          = some (operationId, sp) ∧
        sp.attributes.lookup "mcp.tool.ai_context" = some (.str s) ∧
        sp.attributes.lookup "mcp.tool.ai_intent" =
          some (.str (String.mk (s.toList.take 200)))) := by
  have hnc : ((method == "tools/call" &&
      ((jsGetOpt (jsGetOpt req.params "arguments") "context").map jsTruthy).getD false)
      && !((jsGetOpt (jsGetOpt req.params "arguments") "context").map jsIsString).getD false)
      = false := by
    cases hcv : jsGetOpt (jsGetOpt req.params "arguments") "context" with
    | none => simp
    | some v =>
      cases htv : jsTruthy v with
      | false => simp [htv]
      | true => simp [htv, hctx v hcv htv]
  refine ⟨?_, ?_, ?_⟩
  · cases hr : handler req <;>
      simp [wrappedHandler, hnc, hr]
  · cases hr : handler req <;>
      simp [wrappedHandler, hnc, hr]
  · intro s hm hcv hs
    subst hm
    have htv : jsTruthy (JVal.str s) = true := by simp [jsTruthy, hs]
    -- the live span accumulated through start / ai attributes / project id
    cases hr : handler req with
    | ok v =>
      simp [wrappedHandler, hcv, htv, hnc, hr, jsIsString]
      obtain ⟨sp2, h2, ha1, ha2⟩ := lookup_after_ai_set _ _
        (JVal.str s) (JVal.str (String.mk (s.toList.take 200))) _
        (startMCPSpan_lookup cfg "tools/call" _ st)
      obtain ⟨sp3, h3, hpres⟩ := lookup_after_optional_proj _ _ cfg.projectId _ h2
      exact endMCPSpan_preserves_ai cfg _ _ _ sp3 _ _ h3
        (by rw [hpres _ (by decide)]; exact ha1) (by rw [hpres _ (by decide)]; exact ha2)
    | error e =>
      simp [wrappedHandler, hcv, htv, hnc, hr, jsIsString]
      obtain ⟨sp2, h2, ha1, ha2⟩ := lookup_after_ai_set _ _
        (JVal.str s) (JVal.str (String.mk (s.toList.take 200))) _
        (startMCPSpan_lookup cfg "tools/call" _ st)
      obtain ⟨sp3, h3, hpres⟩ := lookup_after_optional_proj _ _ cfg.projectId _ h2
      exact endMCPSpan_preserves_ai cfg _ _ _ sp3 _ _ h3
        (by rw [hpres _ (by decide)]; exact ha1) (by rw [hpres _ (by decide)]; exact ha2)

/-- Witness for C1 (amended): on a concrete tools/call request with
`context: "because"` the handler receives the raw request, and the
ended span carries the full and truncated intent attributes. -/
theorem wrappedHandler_raw_passthrough_witness :
    (wrappedHandler {} "tools/call" (fun _ => .ok (.str "done")) rawReq "op_1" 0 5
      {}).handlerInput = some rawReq ∧
    ∃ sp : Span,
      (wrappedHandler {} "tools/call" (fun _ => .ok (.str "done")) rawReq "op_1" 0 5
        {}).finalState.endedSpans.getLast? = some ("op_1", sp) ∧
      sp.attributes.lookup "mcp.tool.ai_context" = some (.str "because") ∧
      sp.attributes.lookup "mcp.tool.ai_intent" =
        some (.str (String.mk ("because".toList.take 200))) := by
  have h := wrappedHandler_raw_passthrough_and_intent_attrs {} "tools/call"
    (fun _ => .ok (.str "done")) rawReq "op_1" 0 5 {}
    (by
      intro v hv _
      injection (show some (JVal.str "because") = some v from hv) with hveq
      rw [← hveq]
      rfl)
  exact ⟨h.1, h.2.2 "because" rfl rfl (by decide)⟩

/-! ## C2 — the method-specific end attributes are dead code -/

/-- C2 (code bug evidence): an operation is started for
`tools/list` and ended with a result whose payload holds two tools;
the claim (and the six-case switch in the source) expect the end
attributes to carry the recorded method name and `mcp.tools_count
= 2`, but `extractMethodFromOperationId` is a stub returning
`'unknown'` for every operation id, so the ended span's `mcp.method`
end attribute is `'unknown'` — even though the span was started with
`mcp.method = 'tools/list'` — and no `mcp.tools_count` attribute is
ever attached: every case of `addMethodSpecificAttributes` is
unreachable. -/
theorem endSpan_method_specific_attributes_dead :
    endedSpanAttr toolsListScenario "op_1" "mcp.method" = some (.str "unknown") ∧
    endedSpanAttr toolsListScenario "op_1" "mcp.tools_count" = none ∧
    (startMCPSpan {} "tools/list" (createOperationContext "tools/list" none none "op_1" 0)
      {}).1.attributes.lookup "mcp.method" = some (.str "tools/list") ∧
    extractMethodFromOperationId "op_1" = "unknown" :=
  ⟨rfl, rfl, rfl, rfl⟩

end Neonflare
